import Mathlib

/-!
Verification of the document text-to-speech converter.

Shallow embedding of the behavioural core of the repository:
document extraction adapters and the universal reader facade
(src/document_readers.py), the three synthesis engine variants
(src/tts_engine.py, src/gtts_engine.py, src/google_tts_engine.py),
the JSON/INI configuration store (src/config_manager.py) and the
web upload endpoint (web_app/app.py).

Machine reals of the Python code (CPython floats) are modelled as
rationals; byte-level file IO is modelled by passing file contents
explicitly (`Option String`: `none` means the path does not exist).
Python functions that report failure by returning `None` while
logging a distinct reason are modelled as `Except ReadError _`
carrying the reason of the branch taken.
-/

set_option maxRecDepth 8000

/-- The ASCII whitespace class of Python `str.strip()` as exercised by this
repository (space, tab, newline, carriage return, vertical tab, form feed). -/
def pyIsSpace (c : Char) : Bool :=
  c = ' ' || c = '\t' || c = '\n' || c = '\r' || c = '\x0b' || c = '\x0c'

/-- Python `str.strip()` on the character list: drop whitespace from both ends. -/
def pyStripChars (cs : List Char) : List Char :=
  ((cs.dropWhile pyIsSpace).reverse.dropWhile pyIsSpace).reverse

/-- Python `str.strip()`. -/
def pyStrip (s : String) : String :=
  String.mk (pyStripChars s.data)

/-- Python `str.lower()` (the repository only lowercases ASCII extensions). -/
def pyLower (s : String) : String :=
  String.mk (s.data.map Char.toLower)

/-- Model of `pathlib.PurePath.suffix`: the substring of the file name from its
last dot, provided that dot is neither the first nor the last character;
otherwise the empty string. -/
def pathSuffix (name : String) : String :=
  let cs := name.data
  match ((List.range cs.length).filter (fun i => cs.getD i ' ' = '.')).getLast? with
  | none => ""
  | some i => if 0 < i ∧ i < cs.length - 1 then String.mk (cs.drop i) else ""

/-- The distinct failure reasons logged by the reader functions before they
return `None` (document_readers.py logs a dedicated message on each branch). -/
inductive ReadError
  | NotFound
  | UnsupportedFormat
  | NoContent
deriving DecidableEq

/-- `TextFileReader.read` (document_readers.py lines 42-69): `none` models a
path that does not exist, `some raw` an existing file with decoded content
`raw` (the chardet encoding detection is absorbed into the decoded string).
On success the content is returned stripped. -/
def TextFileReader.read (file : Option String) : Except ReadError String :=
  match file with
  | none => .error .NotFound
  | some raw => .ok (pyStrip raw)

/-- `UniversalDocumentReader.SUPPORTED_EXTENSIONS` (document_readers.py
lines 276-281): the registered extension set, as the list of its keys. -/
def UniversalDocumentReader.SUPPORTED_EXTENSIONS : List String :=
  [".txt", ".pdf", ".docx", ".pptx"]

/-- `UniversalDocumentReader.read_file` (document_readers.py lines 283-312).
`pathExists` is the result of `file_path.exists()`; `adapter` models the
dispatch `cls.SUPPORTED_EXTENSIONS[extension].read(file_path)` and receives
the lowercased extension; it is only consulted in the final branch. -/
def UniversalDocumentReader.read_file (pathExists : Bool) (name : String)
    (adapter : String → Except ReadError String) : Except ReadError String :=
  if !pathExists then .error .NotFound
  else
    let extension := pyLower (pathSuffix name)
    if UniversalDocumentReader.SUPPORTED_EXTENSIONS.contains extension then
      adapter extension
    else .error .UnsupportedFormat

/-- C1: the universal reader's read operation first fails with `NotFound` when
the path does not exist; otherwise, when the lowercased extension is not in
the registered set, it fails with `UnsupportedFormat` without consulting the
format adapter (the result is the same for every adapter, so no file content
is opened or parsed); only for an existing path with a registered extension
does it invoke the corresponding adapter. -/
theorem c1_read_file_dispatch (pathExists : Bool) (name : String)
    (adapter : String → Except ReadError String) :
    (pathExists = false →
      UniversalDocumentReader.read_file pathExists name adapter = .error .NotFound) ∧
    (pathExists = true →
      pyLower (pathSuffix name) ∉ UniversalDocumentReader.SUPPORTED_EXTENSIONS →
      UniversalDocumentReader.read_file pathExists name adapter = .error .UnsupportedFormat) ∧
    (pathExists = true →
      pyLower (pathSuffix name) ∈ UniversalDocumentReader.SUPPORTED_EXTENSIONS →
      UniversalDocumentReader.read_file pathExists name adapter =
        adapter (pyLower (pathSuffix name))) := by
  refine ⟨?_, ?_, ?_⟩
  · intro h1
    simp [UniversalDocumentReader.read_file, h1]
  · intro h1 h2
    simp [UniversalDocumentReader.read_file, h1, h2]
  · intro h1 h2
    simp [UniversalDocumentReader.read_file, h1, h2]

/-- Witness for C1 at concrete inputs: a missing path fails with `NotFound`,
an existing `.xyz` path fails with `UnsupportedFormat`, and an existing path
with uppercase extension `.TXT` is dispatched to the adapter under the
lowercased key `.txt`. -/
theorem c1_read_file_dispatch_witness :
    UniversalDocumentReader.read_file false "doc.txt" (fun _ => .ok "body") =
      .error .NotFound ∧
    UniversalDocumentReader.read_file true "doc.xyz" (fun _ => .ok "body") =
      .error .UnsupportedFormat ∧
    UniversalDocumentReader.read_file true "doc.TXT" (fun e => .ok e) = .ok ".txt" := by
  refine ⟨(c1_read_file_dispatch false "doc.txt" _).1 rfl,
          (c1_read_file_dispatch true "doc.xyz" _).2.1 rfl (by decide),
          ?_⟩
  have h := (c1_read_file_dispatch true "doc.TXT" (fun e => .ok e)).2.2 rfl (by decide)
  rw [h, show pyLower (pathSuffix "doc.TXT") = ".txt" from by decide]

/-- Python values that appear in settings/preference maps. `other` is any
non-primitive value, carrying its Python string form `str(value)`. -/
inductive PyValue
  | int (n : ℤ)
  | float (q : ℚ)
  | bool (b : Bool)
  | str (s : String)
  | pynone
  | other (strForm : String)
deriving DecidableEq

/-- Mutable pyttsx3 properties held by the offline engine (tts_engine.py):
speech rate, volume, selected voice index, and the (session-fixed) number of
available system voices. -/
structure TTSState where
  rate : ℚ
  volume : ℚ
  voice : ℕ
  numVoices : ℕ
deriving DecidableEq

/-- `TTSEngine.set_rate` (tts_engine.py lines 66-78): accept 50..400 inclusive,
otherwise warn and return False without touching the engine property. -/
def TTSEngine.set_rate (s : TTSState) (rate : ℚ) : Bool × TTSState :=
  if 50 ≤ rate ∧ rate ≤ 400 then (true, { s with rate := rate })
  else (false, s)

/-- `TTSEngine.set_volume` (tts_engine.py lines 80-92): accept 0.0..1.0
inclusive, otherwise warn and return False without touching the property. -/
def TTSEngine.set_volume (s : TTSState) (volume : ℚ) : Bool × TTSState :=
  if 0 ≤ volume ∧ volume ≤ 1 then (true, { s with volume := volume })
  else (false, s)

/-- `TTSEngine.set_voice` (tts_engine.py lines 52-64): accept an index into
the system voice list, otherwise warn and return False. -/
def TTSEngine.set_voice (s : TTSState) (voice_id : ℤ) : Bool × TTSState :=
  if 0 ≤ voice_id ∧ voice_id < (s.numVoices : ℤ) then
    (true, { s with voice := voice_id.toNat })
  else (false, s)

/-- The Google Cloud `texttospeech.AudioConfig` fields this repository touches
(google_tts_engine.py). `volume_gain_db = none` models a config constructed
without a `volume_gain_db` argument (backend default gain). -/
structure AudioConfig where
  speaking_rate : ℚ
  pitch : ℚ
  volume_gain_db : Option ℚ
deriving DecidableEq

/-- `GoogleTTSEngine.set_rate` (google_tts_engine.py lines 109-125): accept
0.25..4.0 inclusive and rebuild the audio config from scratch with the new
speaking rate and the previous pitch only; otherwise return False leaving the
config untouched. -/
def GoogleTTSEngine.set_rate (cfg : AudioConfig) (rate : ℚ) : Bool × AudioConfig :=
  if 1/4 ≤ rate ∧ rate ≤ 4 then
    (true, { speaking_rate := rate, pitch := cfg.pitch, volume_gain_db := none })
  else (false, cfg)

/-- `GoogleTTSEngine.set_volume` (google_tts_engine.py lines 127-146): accept
0.0..1.0 inclusive, scale by 16 to the backend's gain range, and rebuild the
audio config keeping the previous speaking rate and pitch; otherwise return
False leaving the config untouched. -/
def GoogleTTSEngine.set_volume (cfg : AudioConfig) (volume : ℚ) : Bool × AudioConfig :=
  if 0 ≤ volume ∧ volume ≤ 1 then
    (true, { speaking_rate := cfg.speaking_rate, pitch := cfg.pitch,
             volume_gain_db := some (volume * 16) })
  else (false, cfg)

/-- C2: for the offline engine (rate 50..400, volume 0..1) and the Google
Cloud variant (rate 0.25..4.0, volume 0..1), a rate or volume outside the
accepted range makes the setter return failure with the engine state exactly
unchanged (rejected, not clamped), while any value inside the range - in
particular a value exactly on a boundary - makes the setter succeed. -/
theorem c2_setter_range_validation (s : TTSState) (cfg : AudioConfig) (r v gr gv : ℚ) :
    (¬(50 ≤ r ∧ r ≤ 400) → TTSEngine.set_rate s r = (false, s)) ∧
    ((50 ≤ r ∧ r ≤ 400) → (TTSEngine.set_rate s r).1 = true) ∧
    (¬(0 ≤ v ∧ v ≤ 1) → TTSEngine.set_volume s v = (false, s)) ∧
    ((0 ≤ v ∧ v ≤ 1) → (TTSEngine.set_volume s v).1 = true) ∧
    (¬(1/4 ≤ gr ∧ gr ≤ 4) → GoogleTTSEngine.set_rate cfg gr = (false, cfg)) ∧
    ((1/4 ≤ gr ∧ gr ≤ 4) → (GoogleTTSEngine.set_rate cfg gr).1 = true) ∧
    (¬(0 ≤ gv ∧ gv ≤ 1) → GoogleTTSEngine.set_volume cfg gv = (false, cfg)) ∧
    ((0 ≤ gv ∧ gv ≤ 1) → (GoogleTTSEngine.set_volume cfg gv).1 = true) := by
  unfold TTSEngine.set_rate TTSEngine.set_volume GoogleTTSEngine.set_rate
    GoogleTTSEngine.set_volume
  refine ⟨?_, ?_, ?_, ?_, ?_, ?_, ?_, ?_⟩ <;> intro h <;>
    first
    | rw [if_neg h]
    | rw [if_pos h]

/-- Witness for C2: out-of-range values (49, 1.1, 0.2, -1) are rejected with
the state unchanged, and exact boundary values (50, 400, 1.0, 0.25) succeed. -/
theorem c2_setter_range_validation_witness :
    TTSEngine.set_rate ⟨200, 9/10, 0, 1⟩ 49 = (false, ⟨200, 9/10, 0, 1⟩) ∧
    (TTSEngine.set_rate ⟨200, 9/10, 0, 1⟩ 50).1 = true ∧
    (TTSEngine.set_rate ⟨200, 9/10, 0, 1⟩ 400).1 = true ∧
    TTSEngine.set_volume ⟨200, 9/10, 0, 1⟩ (11/10) = (false, ⟨200, 9/10, 0, 1⟩) ∧
    (TTSEngine.set_volume ⟨200, 9/10, 0, 1⟩ 1).1 = true ∧
    GoogleTTSEngine.set_rate ⟨1, 0, none⟩ (1/5) = (false, ⟨1, 0, none⟩) ∧
    (GoogleTTSEngine.set_rate ⟨1, 0, none⟩ (1/4)).1 = true ∧
    GoogleTTSEngine.set_volume ⟨1, 0, none⟩ (-1) = (false, ⟨1, 0, none⟩) ∧
    (GoogleTTSEngine.set_volume ⟨1, 0, none⟩ 1).1 = true :=
  ⟨(c2_setter_range_validation ⟨200, 9/10, 0, 1⟩ ⟨1, 0, none⟩ 49 0 1 0).1 (by norm_num),
   (c2_setter_range_validation ⟨200, 9/10, 0, 1⟩ ⟨1, 0, none⟩ 50 0 1 0).2.1 (by norm_num),
   (c2_setter_range_validation ⟨200, 9/10, 0, 1⟩ ⟨1, 0, none⟩ 400 0 1 0).2.1 (by norm_num),
   (c2_setter_range_validation ⟨200, 9/10, 0, 1⟩ ⟨1, 0, none⟩ 50 (11/10) 1 0).2.2.1 (by norm_num),
   (c2_setter_range_validation ⟨200, 9/10, 0, 1⟩ ⟨1, 0, none⟩ 50 1 1 0).2.2.2.1 (by norm_num),
   (c2_setter_range_validation ⟨200, 9/10, 0, 1⟩ ⟨1, 0, none⟩ 50 1 (1/5) 0).2.2.2.2.1 (by norm_num),
   (c2_setter_range_validation ⟨200, 9/10, 0, 1⟩ ⟨1, 0, none⟩ 50 1 (1/4) 0).2.2.2.2.2.1 (by norm_num),
   (c2_setter_range_validation ⟨200, 9/10, 0, 1⟩ ⟨1, 0, none⟩ 50 1 1 (-1)).2.2.2.2.2.2.1 (by norm_num),
   (c2_setter_range_validation ⟨200, 9/10, 0, 1⟩ ⟨1, 0, none⟩ 50 1 1 1).2.2.2.2.2.2.2 (by norm_num)⟩

/-- C9: a successful Google Cloud `set_rate` rebuilds the audio configuration
without any volume-gain field, so a previously applied volume is reset to the
backend default; a successful `set_volume`, by contrast, carries the previous
speaking rate over into the new configuration. -/
theorem c9_google_rate_resets_volume (cfg : AudioConfig) (r v : ℚ)
    (hr : 1/4 ≤ r ∧ r ≤ 4) (hv : 0 ≤ v ∧ v ≤ 1) :
    ((GoogleTTSEngine.set_rate cfg r).1 = true ∧
     (GoogleTTSEngine.set_rate cfg r).2.volume_gain_db = none) ∧
    ((GoogleTTSEngine.set_volume cfg v).1 = true ∧
     (GoogleTTSEngine.set_volume cfg v).2.speaking_rate = cfg.speaking_rate) ∧
    (GoogleTTSEngine.set_rate (GoogleTTSEngine.set_volume cfg v).2 r).2.volume_gain_db
      = none := by
  unfold GoogleTTSEngine.set_rate GoogleTTSEngine.set_volume
  simp only [if_pos hr, if_pos hv]
  simp

/-- Witness for C9: starting from the default config, setting volume 0.5 and
then rate 2.0 leaves the config with no volume gain, while setting volume 0.5
alone preserves the speaking rate. -/
theorem c9_google_rate_resets_volume_witness :
    (GoogleTTSEngine.set_volume ⟨1, 0, none⟩ (1/2)).2.speaking_rate = 1 ∧
    (GoogleTTSEngine.set_rate (GoogleTTSEngine.set_volume ⟨1, 0, none⟩ (1/2)).2 2).2.volume_gain_db
      = none :=
  ⟨((c9_google_rate_resets_volume ⟨1, 0, none⟩ 2 (1/2) (by norm_num) (by norm_num)).2.1).2,
   (c9_google_rate_resets_volume ⟨1, 0, none⟩ 2 (1/2) (by norm_num) (by norm_num)).2.2⟩

/-- `TTSEngine.speak_text` (tts_engine.py lines 103-128): reject blank text
before touching the engine. Result is (returned bool, backend invoked);
`sayOk` abstracts whether the pyttsx3 `say`/`runAndWait` calls succeed. -/
def TTSEngine.speak_text (text : String) (sayOk : Bool) : Bool × Bool :=
  if pyStrip text = "" then (false, false) else (sayOk, true)

/-- `GTTSEngine.speak_text` (gtts_engine.py lines 103-135): reject blank text
before constructing the gTTS request object. -/
def GTTSEngine.speak_text (text : String) (backendOk : Bool) : Bool × Bool :=
  if pyStrip text = "" then (false, false) else (backendOk, true)

/-- `GTTSEngine.save_to_file` (gtts_engine.py lines 137-170): reject blank
text before constructing the gTTS object or writing the output file. Result
is (returned bool, backend invoked, output file written); the file is written
only when the backend request succeeds. -/
def GTTSEngine.save_to_file (text : String) (backendOk : Bool) : Bool × Bool × Bool :=
  if pyStrip text = "" then (false, false, false) else (backendOk, true, backendOk)

/-- `GoogleTTSEngine.speak_text` (google_tts_engine.py lines 157-190): reject
blank text before issuing the synthesis request. -/
def GoogleTTSEngine.speak_text (text : String) (backendOk : Bool) : Bool × Bool :=
  if pyStrip text = "" then (false, false) else (backendOk, true)

/-- `GoogleTTSEngine.save_to_file` (google_tts_engine.py lines 192-221):
reject blank text before issuing the synthesis request or writing the file. -/
def GoogleTTSEngine.save_to_file (text : String) (backendOk : Bool) : Bool × Bool × Bool :=
  if pyStrip text = "" then (false, false, false) else (backendOk, true, backendOk)

/-- C10: for every engine variant, speaking a string that is empty or
whitespace-only returns failure without invoking the synthesis backend, and
for the network variants the render-to-file operation additionally writes no
output file; this holds whatever the backend would have answered. -/
theorem c10_blank_text_rejected (text : String) (b : Bool) (h : pyStrip text = "") :
    TTSEngine.speak_text text b = (false, false) ∧
    GTTSEngine.speak_text text b = (false, false) ∧
    GTTSEngine.save_to_file text b = (false, false, false) ∧
    GoogleTTSEngine.speak_text text b = (false, false) ∧
    GoogleTTSEngine.save_to_file text b = (false, false, false) := by
  unfold TTSEngine.speak_text GTTSEngine.speak_text GTTSEngine.save_to_file
    GoogleTTSEngine.speak_text GoogleTTSEngine.save_to_file
  simp [h]

/-- Witness for C10 on the whitespace-only string of a space, tab and
newline, with a backend that would succeed. -/
theorem c10_blank_text_rejected_witness :
    TTSEngine.speak_text " \t\n" true = (false, false) ∧
    GTTSEngine.speak_text " \t\n" true = (false, false) ∧
    GTTSEngine.save_to_file " \t\n" true = (false, false, false) ∧
    GoogleTTSEngine.speak_text " \t\n" true = (false, false) ∧
    GoogleTTSEngine.save_to_file " \t\n" true = (false, false, false) :=
  c10_blank_text_rejected " \t\n" true (by decide)

/-- Fuel-driven worker for the chunk split; the fuel is an upper bound on the
content length, consumed at least one character per step since the chunk size
is positive in every call that reaches the recursive arm. -/
def chunksOfAux : ℕ → ℕ → List Char → List (List Char)
  | 0, _, _ => []
  | _, _, [] => []
  | fuel + 1, n, l => l.take n :: chunksOfAux fuel n (l.drop n)

/-- The chunk split of `TTSEngine.speak_file` (tts_engine.py line 158):
`[content[i:i+chunk_size] for i in range(0, len(content), chunk_size)]` -
consecutive slices of exactly `chunk_size` characters, the last one possibly
shorter. A zero chunk size makes `range` raise in Python and is handled by
the caller; here it yields no chunks. -/
def chunksOf (n : ℕ) (l : List Char) : List (List Char) :=
  if n = 0 then [] else chunksOfAux l.length n l

/-- The chunk loop of `TTSEngine.speak_file` (tts_engine.py lines 162-168):
speak each chunk in order, stopping at the first failure. Result is (overall
result, the chunks actually handed to `speak_text`, in order). -/
def speakChunks (speak : List Char → Bool) : List (List Char) → Bool × List (List Char)
  | [] => (true, [])
  | c :: rest =>
    if speak c then
      ((speakChunks speak rest).1, c :: (speakChunks speak rest).2)
    else (false, [c])

/-- `TTSEngine.speak_file` (tts_engine.py lines 130-173): a missing file or
blank content fails; a zero chunk size makes `range` raise inside the `try`
and is reported as failure; otherwise the content is split into fixed-size
chunks which are spoken in order with fail-fast semantics. `speak` abstracts
`speak_text` on a chunk. -/
def TTSEngine.speak_file (speak : List Char → Bool) (file : Option String)
    (chunk_size : ℕ) : Bool :=
  match file with
  | none => false
  | some content =>
    if pyStrip content = "" then false
    else if chunk_size = 0 then false
    else (speakChunks speak (chunksOf chunk_size content.data)).1

theorem chunksOfAux_nil (f n : ℕ) : chunksOfAux f n [] = [] := by
  cases f <;> rfl

theorem chunksOfAux_join (n : ℕ) (hn : n ≠ 0) :
    ∀ (f : ℕ) (l : List Char), l.length ≤ f → (chunksOfAux f n l).flatten = l := by
  intro f
  induction f with
  | zero =>
    intro l hl
    rw [List.length_eq_zero.mp (Nat.le_zero.mp hl)]
    rfl
  | succ f ih =>
    intro l hl
    cases l with
    | nil => rfl
    | cons c cs =>
      simp only [chunksOfAux, List.flatten_cons]
      rw [ih ((c :: cs).drop n) ?_, List.take_append_drop]
      simp only [List.length_drop, List.length_cons] at hl ⊢
      omega

theorem chunksOf_join (n : ℕ) (hn : n ≠ 0) (l : List Char) :
    (chunksOf n l).flatten = l := by
  unfold chunksOf
  rw [if_neg hn]
  exact chunksOfAux_join n hn l.length l le_rfl

theorem chunksOfAux_sizes (n : ℕ) (hn : n ≠ 0) :
    ∀ (f : ℕ) (l : List Char), l.length ≤ f →
      ∀ c ∈ chunksOfAux f n l, c ≠ [] ∧ c.length ≤ n := by
  intro f
  induction f with
  | zero =>
    intro l hl c hc
    rw [List.length_eq_zero.mp (Nat.le_zero.mp hl)] at hc
    simp [chunksOfAux] at hc
  | succ f ih =>
    intro l hl c hc
    cases l with
    | nil => simp [chunksOfAux] at hc
    | cons x xs =>
      simp only [chunksOfAux, List.mem_cons] at hc
      rcases hc with rfl | hc
      · refine ⟨?_, by simp [List.length_take]⟩
        simp only [ne_eq, List.take_eq_nil_iff]
        push_neg
        exact ⟨hn, by simp⟩
      · refine ih ((x :: xs).drop n) ?_ c hc
        simp only [List.length_drop, List.length_cons] at hl ⊢
        omega

theorem chunksOfAux_getD (n : ℕ) (hn : n ≠ 0) :
    ∀ (f : ℕ) (l : List Char), l.length ≤ f →
      ∀ i, i + 1 < (chunksOfAux f n l).length →
        ((chunksOfAux f n l).getD i []).length = n := by
  intro f
  induction f with
  | zero =>
    intro l hl i hi
    simp [chunksOfAux] at hi
  | succ f ih =>
    intro l hl i hi
    cases l with
    | nil => simp [chunksOfAux] at hi
    | cons x xs =>
      simp only [chunksOfAux, List.length_cons] at hi ⊢
      cases i with
      | zero =>
        have hne : (x :: xs).drop n ≠ [] := by
          intro hd
          rw [hd, chunksOfAux_nil] at hi
          simp at hi
        have hlen : n < (x :: xs).length := by
          have := List.length_pos.mpr hne
          simp only [List.length_drop] at this
          omega
        simp only [List.getD_cons_zero, List.length_take]
        omega
      | succ j =>
        simp only [List.getD_cons_succ]
        refine ih ((x :: xs).drop n) ?_ j (by omega)
        simp only [List.length_drop, List.length_cons] at hl ⊢
        omega

theorem speakChunks_prefix (speak : List Char → Bool) (cs : List (List Char)) :
    (speakChunks speak cs).2 <+: cs := by
  induction cs with
  | nil => exact ⟨[], rfl⟩
  | cons c rest ih =>
    simp only [speakChunks]
    by_cases h : speak c = true
    · rw [if_pos h]
      rcases ih with ⟨t, ht⟩
      exact ⟨t, by simpa using ht⟩
    · rw [if_neg h]
      exact ⟨rest, rfl⟩

theorem speakChunks_success (speak : List Char → Bool) (cs : List (List Char))
    (h : (speakChunks speak cs).1 = true) :
    (speakChunks speak cs).2 = cs ∧ ∀ c ∈ cs, speak c = true := by
  induction cs with
  | nil => exact ⟨rfl, by simp⟩
  | cons c rest ih =>
    simp only [speakChunks] at h ⊢
    by_cases hc : speak c = true
    · rw [if_pos hc] at h ⊢
      rcases ih h with ⟨h1, h2⟩
      refine ⟨by rw [h1], ?_⟩
      intro x hx
      rcases List.mem_cons.mp hx with rfl | hx
      · exact hc
      · exact h2 x hx
    · rw [if_neg hc] at h
      exact absurd h (by simp)

theorem speakChunks_failure (speak : List Char → Bool) (cs : List (List Char))
    (h : (speakChunks speak cs).1 = false) :
    ∃ pre c, (speakChunks speak cs).2 = pre ++ [c] ∧ speak c = false ∧
      ∀ x ∈ pre, speak x = true := by
  induction cs with
  | nil => simp [speakChunks] at h
  | cons c rest ih =>
    simp only [speakChunks] at h ⊢
    by_cases hc : speak c = true
    · rw [if_pos hc] at h ⊢
      rcases ih h with ⟨pre, d, h1, h2, h3⟩
      refine ⟨c :: pre, d, by simp [h1], h2, ?_⟩
      intro x hx
      rcases List.mem_cons.mp hx with rfl | hx
      · exact hc
      · exact h3 x hx
    · rw [if_neg hc] at h ⊢
      exact ⟨[], c, rfl, by simpa using hc, by simp⟩

/-- C4: for non-blank content and positive chunk size n, the offline engine's
speak-file path splits the content into consecutive chunks whose in-order
concatenation is exactly the original content, every chunk is non-empty with
at most n characters and every chunk except possibly the last has exactly n
characters (i.e. the split is by fixed character count, not word or sentence
boundaries); the chunks are spoken in original order (the attempted sequence
is a prefix of the chunk list), on overall success every chunk was spoken,
and on the first failing chunk the operation returns failure immediately
without attempting any remaining chunk. -/
theorem c4_speak_file_chunking (content : String) (n : ℕ) (speak : List Char → Bool)
    (hn : 0 < n) (hc : pyStrip content ≠ "") :
    (chunksOf n content.data).flatten = content.data ∧
    (∀ c ∈ chunksOf n content.data, c ≠ [] ∧ c.length ≤ n) ∧
    (∀ i, i + 1 < (chunksOf n content.data).length →
      ((chunksOf n content.data).getD i []).length = n) ∧
    TTSEngine.speak_file speak (some content) n =
      (speakChunks speak (chunksOf n content.data)).1 ∧
    (speakChunks speak (chunksOf n content.data)).2 <+: chunksOf n content.data ∧
    ((speakChunks speak (chunksOf n content.data)).1 = true →
      (speakChunks speak (chunksOf n content.data)).2 = chunksOf n content.data ∧
      ∀ c ∈ chunksOf n content.data, speak c = true) ∧
    ((speakChunks speak (chunksOf n content.data)).1 = false →
      ∃ pre c, (speakChunks speak (chunksOf n content.data)).2 = pre ++ [c] ∧
        speak c = false ∧ ∀ x ∈ pre, speak x = true) := by
  have hn0 : n ≠ 0 := Nat.pos_iff_ne_zero.mp hn
  refine ⟨chunksOf_join n hn0 content.data, ?_, ?_, ?_, speakChunks_prefix speak _,
    speakChunks_success speak _, speakChunks_failure speak _⟩
  · intro c hcm
    unfold chunksOf at hcm
    rw [if_neg hn0] at hcm
    exact chunksOfAux_sizes n hn0 content.data.length content.data le_rfl c hcm
  · intro i hi
    unfold chunksOf at hi ⊢
    rw [if_neg hn0] at hi ⊢
    exact chunksOfAux_getD n hn0 content.data.length content.data le_rfl i hi
  · show (if pyStrip content = "" then false
      else if n = 0 then false
      else (speakChunks speak (chunksOf n content.data)).1) =
      (speakChunks speak (chunksOf n content.data)).1
    rw [if_neg hc, if_neg hn0]

/-- Witness for C4 on the content "abcde" with chunk size 2 and a speak
function that always succeeds: the split is ab / cd / e, its concatenation is
the content, and speak-file succeeds. -/
theorem c4_speak_file_chunking_witness :
    0 < 2 ∧ pyStrip "abcde" ≠ "" ∧
    chunksOf 2 ("abcde".data) = [['a', 'b'], ['c', 'd'], ['e']] ∧
    (chunksOf 2 ("abcde".data)).flatten = "abcde".data ∧
    TTSEngine.speak_file (fun _ => true) (some "abcde") 2 = true := by
  have h := c4_speak_file_chunking "abcde" 2 (fun _ => true) (by norm_num) (by decide)
  refine ⟨by norm_num, by decide, by decide, h.1, ?_⟩
  rw [h.2.2.2.1]
  decide

/-- Little-endian base-10 digits, computed with explicit fuel so that it
evaluates by kernel reduction; the fuel is an upper bound on the number. -/
def natDigitsAux : ℕ → ℕ → List ℕ
  | 0, _ => []
  | _, 0 => []
  | fuel + 1, n + 1 => ((n + 1) % 10) :: natDigitsAux fuel ((n + 1) / 10)

/-- Little-endian base-10 digits of a natural number (empty for zero). -/
def natDigits (n : ℕ) : List ℕ := natDigitsAux n n

theorem natDigitsAux_eq (fuel : ℕ) :
    ∀ n, n ≤ fuel → natDigitsAux fuel n = Nat.digits 10 n := by
  induction fuel with
  | zero =>
    intro n hn
    rw [Nat.le_zero.mp hn, Nat.digits_zero]
    rfl
  | succ fuel ih =>
    intro n hn
    cases n with
    | zero => rw [Nat.digits_zero]; rfl
    | succ m =>
      rw [show natDigitsAux (fuel + 1) (m + 1)
            = ((m + 1) % 10) :: natDigitsAux fuel ((m + 1) / 10) from rfl,
        Nat.digits_def' (by norm_num : (1 : ℕ) < 10) (Nat.succ_pos m),
        ih ((m + 1) / 10) ?_]
      have := Nat.div_lt_self (Nat.succ_pos m) (by norm_num : (1 : ℕ) < 10)
      omega

theorem natDigits_eq (n : ℕ) : natDigits n = Nat.digits 10 n :=
  natDigitsAux_eq n n le_rfl

/-- The character of a single decimal digit. -/
def digitChar (d : ℕ) : Char := Char.ofNat (48 + d)

/-- The numeric value of a decimal digit character. -/
def digitVal (c : Char) : ℕ := c.toNat - 48

/-- Big-endian decimal digit characters of a natural number, as printed by
Python `str` (zero prints as "0"). -/
def digitsStr (n : ℕ) : List Char :=
  if n = 0 then ['0'] else ((natDigits n).map digitChar).reverse

/-- Python `str` of a natural number. -/
def natToString (n : ℕ) : String := String.mk (digitsStr n)

/-- The accumulator step of reading a big-endian digit string. -/
def digitFold (a : ℕ) (c : Char) : ℕ := 10 * a + digitVal c

/-- Parse a non-empty all-digit character list as a natural number; this is
Python `int()` restricted to the strings this model prints (real `int()`
additionally tolerates surrounding whitespace, a sign, or underscores, none
of which the printing side produces). -/
def natFromChars (cs : List Char) : Option ℕ :=
  if cs.isEmpty then none
  else if cs.all Char.isDigit then some (cs.foldl digitFold 0)
  else none

/-- Python `str` of an int: optional minus sign, then the decimal digits. -/
def pyStrInt (n : ℤ) : String :=
  if n < 0 then String.mk ('-' :: digitsStr n.natAbs)
  else String.mk (digitsStr n.natAbs)

/-- Python `int()` on a character list: an optional minus sign followed by
decimal digits (restricted as in `natFromChars`). -/
def pyIntChars (cs : List Char) : Option ℤ :=
  if cs.head? = some '-' then (natFromChars cs.tail).map (fun a => -(a : ℤ))
  else (natFromChars cs).map (fun a => (a : ℤ))

/-- Python `int()` on a string. -/
def pyInt (s : String) : Option ℤ := pyIntChars s.data

theorem digitChar_isDigit {d : ℕ} (hd : d < 10) : (digitChar d).isDigit = true := by
  interval_cases d <;> decide

theorem digitVal_digitChar {d : ℕ} (hd : d < 10) : digitVal (digitChar d) = d := by
  interval_cases d <;> decide

theorem digitsStr_ne_nil (n : ℕ) : digitsStr n ≠ [] := by
  unfold digitsStr
  split
  · simp
  · rename_i h
    simp only [ne_eq, List.reverse_eq_nil_iff, List.map_eq_nil_iff]
    rw [natDigits_eq]
    exact Nat.digits_ne_nil_iff_ne_zero.mpr h

theorem digitsStr_all_digits (n : ℕ) : (digitsStr n).all Char.isDigit = true := by
  unfold digitsStr
  split
  · decide
  · rename_i h
    rw [List.all_eq_true]
    intro c hc
    rw [List.mem_reverse, List.mem_map] at hc
    rcases hc with ⟨d, hd, rfl⟩
    rw [natDigits_eq] at hd
    exact digitChar_isDigit (Nat.digits_lt_base (by norm_num) hd)

theorem foldl_digitsStr (n : ℕ) :
    (digitsStr n).foldl digitFold 0 = n := by
  unfold digitsStr
  split
  · rename_i h
    rw [h]
    decide
  · rename_i h
    rw [natDigits_eq, List.foldl_reverse, List.foldr_map]
    have key : ∀ (ds : List ℕ), (∀ d ∈ ds, d < 10) →
        ds.foldr (fun d a => digitFold a (digitChar d)) 0 = Nat.ofDigits 10 ds := by
      intro ds hds
      induction ds with
      | nil => simp [Nat.ofDigits]
      | cons d rest ih =>
        simp only [List.foldr_cons, Nat.ofDigits_cons]
        rw [ih (fun x hx => hds x (List.mem_cons_of_mem d hx))]
        show digitFold (Nat.ofDigits 10 rest) (digitChar d) = d + 10 * Nat.ofDigits 10 rest
        unfold digitFold
        rw [digitVal_digitChar (hds d (List.mem_cons_self d rest))]
        ring
    rw [key (Nat.digits 10 n) (fun d hd => Nat.digits_lt_base (by norm_num) hd)]
    exact Nat.ofDigits_digits 10 n

theorem natFromChars_digitsStr (n : ℕ) : natFromChars (digitsStr n) = some n := by
  unfold natFromChars
  rw [if_neg (by simp [List.isEmpty_iff, digitsStr_ne_nil]),
    if_pos (digitsStr_all_digits n), foldl_digitsStr]

theorem digitsStr_head_not_minus (n : ℕ) : (digitsStr n).head? ≠ some '-' := by
  intro h
  have hall := digitsStr_all_digits n
  rw [List.all_eq_true] at hall
  cases hd : digitsStr n with
  | nil => rw [hd] at h; simp at h
  | cons c cs =>
    rw [hd] at h
    simp only [List.head?_cons, Option.some.injEq] at h
    have := hall c (by rw [hd]; exact List.mem_cons_self c cs)
    rw [h] at this
    simp [Char.isDigit] at this

/-- Round trip: Python `int(str(n)) == n`. -/
theorem pyInt_pyStrInt (n : ℤ) : pyInt (pyStrInt n) = some n := by
  unfold pyInt pyStrInt
  by_cases hn : n < 0
  · rw [if_pos hn]
    show pyIntChars ('-' :: digitsStr n.natAbs) = some n
    unfold pyIntChars
    rw [if_pos (by simp), List.tail_cons, natFromChars_digitsStr]
    show some (-(n.natAbs : ℤ)) = some n
    congr 1
    omega
  · rw [if_neg hn]
    show pyIntChars (digitsStr n.natAbs) = some n
    unfold pyIntChars
    rw [if_neg (digitsStr_head_not_minus n.natAbs), natFromChars_digitsStr]
    show some ((n.natAbs : ℤ)) = some n
    congr 1
    omega

/-- The per-page banner `--- Page {n} ---\n{page_text}` built by
`PDFReader.read` (document_readers.py line 103). -/
def pdfHeader (n : ℕ) (t : String) : String :=
  "--- Page " ++ natToString n ++ " ---\n" ++ t

/-- Whether the extraction loop appends nothing for this page: either
`page.extract_text()` raised (`none`) or it returned whitespace-only text. -/
def pageSkipped (p : Option String) : Bool :=
  match p with
  | none => true
  | some t => pyStrip t = ""

/-- The page loop of `PDFReader.read` (document_readers.py lines 99-106):
accumulate the headered text of every non-blank successfully extracted page;
a page whose extraction raises is logged and skipped. `n` is the 1-based
number of the first page of the list. -/
def pdfCollect : List (Option String) → ℕ → List String
  | [], _ => []
  | none :: rest, n => pdfCollect rest (n + 1)
  | some t :: rest, n =>
    if pyStrip t = "" then pdfCollect rest (n + 1)
    else pdfHeader n t :: pdfCollect rest (n + 1)

/-- `PDFReader.read` (document_readers.py lines 75-118): `NotFound` for a
missing path, `NoContent` when no page contributed text, else the collected
page texts joined by blank lines and stripped. Each list element models one
`pdf_reader.pages` entry (`none` = that page's extraction raised). -/
def PDFReader.read (pathExists : Bool) (pages : List (Option String)) :
    Except ReadError String :=
  if !pathExists then .error .NotFound
  else
    let texts := pdfCollect pages 1
    if texts.isEmpty then .error .NoContent
    else .ok (pyStrip (String.intercalate "\n\n" texts))

theorem pdfCollect_eq_nil_iff (pages : List (Option String)) :
    ∀ n, pdfCollect pages n = [] ↔ ∀ p ∈ pages, pageSkipped p = true := by
  induction pages with
  | nil => intro n; simp [pdfCollect]
  | cons p rest ih =>
    intro n
    cases p with
    | none =>
      simp only [pdfCollect, List.mem_cons]
      rw [ih (n + 1)]
      constructor
      · intro h q hq
        rcases hq with rfl | hq
        · rfl
        · exact h q hq
      · intro h q hq
        exact h q (Or.inr hq)
    | some t =>
      by_cases hb : pyStrip t = ""
      · simp only [pdfCollect, if_pos hb, List.mem_cons]
        rw [ih (n + 1)]
        constructor
        · intro h q hq
          rcases hq with rfl | hq
          · simp [pageSkipped, hb]
          · exact h q hq
        · intro h q hq
          exact h q (Or.inr hq)
      · simp only [pdfCollect, if_neg hb, List.mem_cons]
        constructor
        · intro h
          exact absurd h (List.cons_ne_nil _ _)
        · intro h
          have := h (some t) (Or.inl rfl)
          simp [pageSkipped, hb] at this
  
theorem pdfCollect_length (pages : List (Option String)) :
    ∀ n, (pdfCollect pages n).length = (pages.filter (fun p => !pageSkipped p)).length := by
  induction pages with
  | nil => intro n; rfl
  | cons p rest ih =>
    intro n
    cases p with
    | none =>
      simp only [pdfCollect, List.filter_cons]
      rw [ih (n + 1)]
      rfl
    | some t =>
      by_cases hb : pyStrip t = ""
      · simp only [pdfCollect, if_pos hb, List.filter_cons]
        rw [ih (n + 1)]
        simp [pageSkipped, hb]
      · simp only [pdfCollect, if_neg hb, List.filter_cons]
        rw [List.length_cons, ih (n + 1)]
        simp [pageSkipped, hb]

theorem pdfCollect_mem_of_content (t : String) (ht : pyStrip t ≠ "") :
    ∀ (pre post : List (Option String)) (n : ℕ),
      pdfHeader (n + pre.length) t ∈ pdfCollect (pre ++ some t :: post) n := by
  intro pre
  induction pre with
  | nil =>
    intro post n
    simp only [List.nil_append, List.length_nil, Nat.add_zero, pdfCollect, if_neg ht]
    exact List.mem_cons_self _ _
  | cons p pre ih =>
    intro post n
    have harith : n + (p :: pre).length = (n + 1) + pre.length := by
      simp only [List.length_cons]
      omega
    rw [harith]
    cases p with
    | none =>
      simp only [List.cons_append, pdfCollect]
      exact ih post (n + 1)
    | some u =>
      by_cases hb : pyStrip u = ""
      · simp only [List.cons_append, pdfCollect, if_pos hb]
        exact ih post (n + 1)
      · simp only [List.cons_append, pdfCollect, if_neg hb]
        exact List.mem_cons_of_mem _ (ih post (n + 1))

/-- C5: for an existing PDF file, extraction proceeds page by page: the
overall result is `NoContent` exactly when every page either failed to
extract or yielded only whitespace; each skipped page contributes no entry
(the collected entries are in bijection with the non-skipped pages); a page
with real content contributes its headered text even when pages before it
failed or were blank (page-level failure does not abort the remaining
pages); and whenever at least one page has content the overall read
succeeds. -/
theorem c5_pdf_page_policy (pages : List (Option String)) :
    (PDFReader.read true pages = .error .NoContent ↔
      ∀ p ∈ pages, pageSkipped p = true) ∧
    (pdfCollect pages 1).length = (pages.filter (fun p => !pageSkipped p)).length ∧
    (∀ (pre post : List (Option String)) (t : String), pyStrip t ≠ "" →
      pages = pre ++ some t :: post →
      pdfHeader (1 + pre.length) t ∈ pdfCollect pages 1) ∧
    ((∃ p ∈ pages, pageSkipped p = false) →
      PDFReader.read true pages =
        .ok (pyStrip (String.intercalate "\n\n" (pdfCollect pages 1)))) := by
  have hread : PDFReader.read true pages =
      (if (pdfCollect pages 1).isEmpty then .error .NoContent
       else .ok (pyStrip (String.intercalate "\n\n" (pdfCollect pages 1)))) := rfl
  refine ⟨?_, pdfCollect_length pages 1, ?_, ?_⟩
  · rw [hread]
    by_cases he : (pdfCollect pages 1).isEmpty
    · rw [if_pos he]
      simp only [true_iff]
      rw [← pdfCollect_eq_nil_iff pages 1]
      exact List.isEmpty_iff.mp he
    · rw [if_neg he]
      constructor
      · intro h
        exact absurd h (by simp)
      · intro h
        exact absurd (List.isEmpty_iff.mpr ((pdfCollect_eq_nil_iff pages 1).mpr h)) he
  · intro pre post t ht hp
    rw [hp]
    exact pdfCollect_mem_of_content t ht pre post 1
  · intro ⟨p, hp, hps⟩
    rw [hread, if_neg ?_]
    intro he
    have := (pdfCollect_eq_nil_iff pages 1).mp (List.isEmpty_iff.mp he) p hp
    rw [hps] at this
    exact absurd this (by simp)

/-- Witness for C5: a two-page PDF whose pages raise and return whitespace
fails with `NoContent`; adding a third page with content makes the read
succeed with that page's headered text, page number included, even though
the first two pages were skipped. -/
theorem c5_pdf_page_policy_witness :
    PDFReader.read true [none, some " \n"] = .error .NoContent ∧
    PDFReader.read true [none, some " \n", some "hello"] =
      .ok "--- Page 3 ---\nhello" ∧
    pdfHeader (1 + 2) "hello" ∈ pdfCollect [none, some " \n", some "hello"] 1 := by
  refine ⟨(c5_pdf_page_policy [none, some " \n"]).1.mpr (by decide), ?_, ?_⟩
  · have h := (c5_pdf_page_policy [none, some " \n", some "hello"]).2.2.2
      ⟨some "hello", by simp, by decide⟩
    rw [h, show pyStrip ("\n\n".intercalate (pdfCollect [none, some " \n", some "hello"] 1))
      = "--- Page 3 ---\nhello" from by decide]
  · exact (c5_pdf_page_policy [none, some " \n", some "hello"]).2.2.1
      [none, some " \n"] [] "hello" (by decide) rfl

/-- The `isinstance(value, (int, float, str, bool, type(None)))` test of
`save_config` (config_manager.py line 77). -/
def isPrimitive : PyValue → Bool
  | .int _ => true
  | .float _ => true
  | .bool _ => true
  | .str _ => true
  | .pynone => true
  | .other _ => false

/-- The per-value conversion of `save_config` (config_manager.py lines 75-80):
primitive values are kept as they are, any other value is replaced by its
Python string form `str(value)`. -/
def serializeValue : PyValue → PyValue
  | .other s => .str s
  | v => v

/-- The JSON document written by `save_config` (config_manager.py lines
82-90): a version tag, the converted settings map, and a provenance string. -/
structure ConfigFile where
  version : String
  settings : List (String × PyValue)
  created_by : String
deriving DecidableEq

/-- `ConfigManager.save_config` (config_manager.py lines 53-97): convert each
value, wrap with metadata, and write the file (returned here as the written
document; the unconditional overwrite is the function result itself). -/
def ConfigManager.save_config (settings : List (String × PyValue)) : ConfigFile :=
  { version := "1.0",
    settings := settings.map (fun kv => (kv.1, serializeValue kv.2)),
    created_by := "TTS Automation Tool" }

/-- `ConfigManager.load_config` (config_manager.py lines 99-134): `none` when
the target file does not exist, else the `settings` member of the wrapped
record (the bare legacy shape is not exercised by files this model writes). -/
def ConfigManager.load_config : Option ConfigFile → Option (List (String × PyValue))
  | none => none
  | some f => some f.settings

theorem serializeValue_map_id (s : List (String × PyValue)) :
    (∀ kv ∈ s, isPrimitive kv.2 = true) →
    s.map (fun kv => (kv.1, serializeValue kv.2)) = s := by
  induction s with
  | nil => intro _; rfl
  | cons kv rest ih =>
    intro h
    rw [List.map_cons, ih (fun x hx => h x (List.mem_cons_of_mem kv hx))]
    obtain ⟨k, v⟩ := kv
    have h1 := h (k, v) (List.mem_cons_self _ _)
    cases v <;> simp_all [serializeValue, isPrimitive]

/-- C3: saving a settings map whose values are all primitives with the JSON
config store and loading from the same target yields exactly the original
settings map; a non-primitive value is coerced to its string form in the
written settings. -/
theorem c3_json_round_trip (s : List (String × PyValue))
    (h : ∀ kv ∈ s, isPrimitive kv.2 = true) :
    ConfigManager.load_config (some (ConfigManager.save_config s)) = some s ∧
    (∀ t, serializeValue (.other t) = .str t) ∧
    (ConfigManager.save_config s).version = "1.0" ∧
    (ConfigManager.save_config s).created_by = "TTS Automation Tool" := by
  refine ⟨?_, fun t => rfl, rfl, rfl⟩
  show some ((ConfigManager.save_config s).settings) = some s
  rw [show (ConfigManager.save_config s).settings
    = s.map (fun kv => (kv.1, serializeValue kv.2)) from rfl]
  rw [serializeValue_map_id s h]

/-- Witness for C3 on the repository's own test settings (`main` of
config_manager.py): rate 180, volume 0.8, voice 1, chunk size 500. -/
theorem c3_json_round_trip_witness :
    ConfigManager.load_config (some (ConfigManager.save_config
      [("rate", .int 180), ("volume", .float (4/5)), ("voice_id", .int 1),
       ("chunk_size", .int 500)])) =
    some [("rate", .int 180), ("volume", .float (4/5)), ("voice_id", .int 1),
       ("chunk_size", .int 500)] :=
  (c3_json_round_trip _ (by decide)).1

/-- `ALLOWED_EXTENSIONS` (web_app/app.py line 53). -/
def ALLOWED_EXTENSIONS : List String := [".txt", ".pdf", ".docx", ".pptx"]

/-- `allowed_file` (web_app/app.py lines 76-78). -/
def allowed_file (filename : String) : Bool :=
  ALLOWED_EXTENSIONS.contains (pyLower (pathSuffix filename))

/-- A JSON response of the upload endpoint: HTTP status plus either the error
message or the extracted text payload. -/
inductive UploadResponse
  | error (status : ℕ) (message : String)
  | success (text : String) (filename : String) (length : ℕ)
deriving DecidableEq

/-- The HTTP status of a response (success responses are 200). -/
def UploadResponse.status : UploadResponse → ℕ
  | .error s _ => s
  | .success _ _ _ => 200

/-- `upload_file` (web_app/app.py lines 235-273): `file` is `none` when the
request has no file part, else the client file name and the decoded content
of the uploaded bytes. The saved copy always exists when the reader runs,
and the uuid prefix on the stored name leaves the extension unchanged, so
the reader is invoked with an existing path of the same suffix; `adapter`
models the format adapter exactly as in `UniversalDocumentReader.read_file`.
An extraction that fails or yields falsy (empty) content is answered with
HTTP 400, not 500. -/
def upload_file (adapter : String → Except ReadError String)
    (file : Option (String × String)) : UploadResponse :=
  match file with
  | none => .error 400 "No file provided"
  | some (filename, _) =>
    if filename = "" then .error 400 "No file selected"
    else if !allowed_file filename then
      .error 400 "File type not supported. Supported: TXT, PDF, DOCX, PPTX"
    else
      match UniversalDocumentReader.read_file true filename adapter with
      | .error _ => .error 400 "Could not extract text from file"
      | .ok t =>
        if t = "" then .error 400 "Could not extract text from file"
        else .success t filename t.length

/-- C8: uploading a zero-byte file under any name with extension `.txt`
returns the HTTP 400 error response "Could not extract text from file" (the
no-content class of the upload endpoint), never HTTP 500: the empty
extraction result of the text reader is detected and converted to a client
error. -/
theorem c8_upload_empty_txt (filename : String)
    (h : pyLower (pathSuffix filename) = ".txt") :
    upload_file (fun _ => TextFileReader.read (some "")) (some (filename, "")) =
      .error 400 "Could not extract text from file" ∧
    (upload_file (fun _ => TextFileReader.read (some "")) (some (filename, ""))).status
      = 400 := by
  have hne : filename ≠ "" := by
    intro h0
    rw [h0] at h
    exact absurd h (by decide)
  have hall : allowed_file filename = true := by
    unfold allowed_file
    rw [h]
    decide
  have hread : UniversalDocumentReader.read_file true filename
      (fun _ => TextFileReader.read (some "")) = .ok "" := by
    have h3 := (c1_read_file_dispatch true filename
      (fun _ => TextFileReader.read (some ""))).2.2 rfl (by rw [h]; decide)
    rw [h3]
    show (Except.ok (pyStrip "") : Except ReadError String) = .ok ""
    rw [show pyStrip "" = "" from by decide]
  have main : upload_file (fun _ => TextFileReader.read (some "")) (some (filename, "")) =
      .error 400 "Could not extract text from file" := by
    show (if filename = "" then UploadResponse.error 400 "No file selected"
      else if !allowed_file filename then
        UploadResponse.error 400 "File type not supported. Supported: TXT, PDF, DOCX, PPTX"
      else match UniversalDocumentReader.read_file true filename
          (fun _ => TextFileReader.read (some "")) with
        | .error _ => UploadResponse.error 400 "Could not extract text from file"
        | .ok t =>
          if t = "" then UploadResponse.error 400 "Could not extract text from file"
          else UploadResponse.success t filename t.length) =
      UploadResponse.error 400 "Could not extract text from file"
    rw [if_neg hne, hall, hread]
    show (if ("" : String) = "" then
        UploadResponse.error 400 "Could not extract text from file"
      else UploadResponse.success "" filename ("" : String).length) =
      UploadResponse.error 400 "Could not extract text from file"
    rw [if_pos rfl]
  exact ⟨main, by rw [main]; rfl⟩

/-- Witness for C8 at the concrete upload of a zero-byte file "empty.txt". -/
theorem c8_upload_empty_txt_witness :
    upload_file (fun _ => TextFileReader.read (some "")) (some ("empty.txt", "")) =
      .error 400 "Could not extract text from file" ∧
    (upload_file (fun _ => TextFileReader.read (some "")) (some ("empty.txt", ""))).status
      = 400 :=
  c8_upload_empty_txt "empty.txt" (by decide)

/-- Decimal digit characters of the value `m / 10^k`, printed with the
decimal point `k` digits from the right and a minus sign when `m` is
negative; the digit string of `|m|` is zero-padded on the left so that the
integer part is never empty. -/
def decimalChars (m : ℤ) (k : ℕ) : List Char :=
  let ds := digitsStr m.natAbs
  let padded := List.replicate (k + 1 - ds.length) '0' ++ ds
  (if m < 0 then ['-'] else []) ++
    padded.take (padded.length - k) ++ '.' :: padded.drop (padded.length - k)

/-- Python `str` of a float. Every CPython float is a dyadic rational with a
finite exact decimal expansion; the model prints that exact expansion
`m / 10^k`, using the first exponent `k` from 1 to 1101 that makes the value
integral over `10^k` (1101 digits cover every double, down to 2^-1074).
CPython prints the shortest decimal that reparses to the same float; both
spellings denote the same value, and the configuration store's contract is
about the value. A rational that is not expressible over such a power of ten
is not representable as a CPython float at all (so it is never produced by
the program); for totality the model prints those as an exact `num/den`
form, which its own parser also accepts. -/
def pyStrFloat (q : ℚ) : String :=
  match (List.range 1101).find? (fun j => (q.den : ℕ) ∣ 10 ^ (j + 1)) with
  | some j =>
    String.mk (decimalChars (q.num * (((10 ^ (j + 1) : ℕ) / q.den : ℕ) : ℤ)) (j + 1))
  | none => pyStrInt q.num ++ "/" ++ natToString q.den

/-- Split a character list at the first occurrence of `c`. -/
def splitFirst (c : Char) : List Char → Option (List Char × List Char)
  | [] => none
  | x :: xs =>
    if x = c then some ([], xs)
    else (splitFirst c xs).map (fun p => (x :: p.1, p.2))

/-- Python `float()` on the character lists this model prints: an optional
minus sign, then a decimal `a.b`, a bare digit string, or the model's exact
`a/b` fallback. Real `float()` accepts further spellings (exponent notation,
inf/nan, whitespace), none of which the printing side produces. -/
def pyFloatBody (body : List Char) : Option ℚ :=
  match splitFirst '/' body with
  | some (ns, ds) =>
    match natFromChars ns, natFromChars ds with
    | some a, some b => if b = 0 then none else some ((a : ℚ) / b)
    | _, _ => none
  | none =>
    match splitFirst '.' body with
    | none => (natFromChars body).map (fun a => (a : ℚ))
    | some (ip, fp) =>
      match natFromChars ip, natFromChars fp with
      | some a, some b => some ((a : ℚ) + (b : ℚ) / 10 ^ fp.length)
      | _, _ => none

/-- The optional leading minus sign of Python `float()` parsing: the
magnitude is parsed by `pyFloatBody` and negated. -/
def pyFloatChars (cs : List Char) : Option ℚ :=
  if cs.head? = some '-' then (pyFloatBody cs.tail).map (fun q => -q)
  else pyFloatBody cs

/-- Python `float()` on a string. -/
def pyFloat (s : String) : Option ℚ := pyFloatChars s.data

theorem splitFirst_eq_none (c : Char) (l : List Char) (h : c ∉ l) :
    splitFirst c l = none := by
  induction l with
  | nil => rfl
  | cons x xs ih =>
    unfold splitFirst
    rw [if_neg (show ¬(x = c) by intro he; rw [← he] at h; exact h (List.mem_cons_self x xs)),
      ih (fun hx => h (List.mem_cons_of_mem x hx))]
    rfl

theorem splitFirst_append (c : Char) (xs ys : List Char) (h : c ∉ xs) :
    splitFirst c (xs ++ c :: ys) = some (xs, ys) := by
  induction xs with
  | nil => simp [splitFirst]
  | cons x xs ih =>
    rw [List.cons_append]
    unfold splitFirst
    rw [if_neg (show ¬(x = c) by intro he; rw [← he] at h; exact h (List.mem_cons_self x xs)),
      ih (fun hx => h (List.mem_cons_of_mem x hx))]
    rfl

theorem foldl_digitFold_shift (ys : List Char) : ∀ (b : ℕ),
    ys.foldl digitFold b = b * 10 ^ ys.length + ys.foldl digitFold 0 := by
  induction ys with
  | nil => intro b; simp
  | cons y ys ih =>
    intro b
    simp only [List.foldl_cons, List.length_cons]
    rw [ih (digitFold b y), ih (digitFold 0 y)]
    unfold digitFold
    ring

theorem foldl_digitFold_append (xs ys : List Char) :
    (xs ++ ys).foldl digitFold 0 =
      (xs.foldl digitFold 0) * 10 ^ ys.length + ys.foldl digitFold 0 := by
  rw [List.foldl_append, foldl_digitFold_shift ys (xs.foldl digitFold 0)]

theorem foldl_digitFold_replicate_zero (z : ℕ) (l : List Char) :
    (List.replicate z '0' ++ l).foldl digitFold 0 = l.foldl digitFold 0 := by
  induction z with
  | zero => rfl
  | succ z ih =>
    rw [List.replicate_succ, List.cons_append, List.foldl_cons,
      show digitFold 0 '0' = 0 from by decide]
    exact ih

theorem natFromChars_eq_some (cs : List Char) (h1 : cs ≠ [])
    (h2 : ∀ c ∈ cs, c.isDigit = true) :
    natFromChars cs = some (cs.foldl digitFold 0) := by
  unfold natFromChars
  rw [if_neg (by simp [List.isEmpty_iff, h1]), if_pos (List.all_eq_true.mpr h2)]


theorem pyFloatBody_decimal (ip fp : List Char) (hipne : ip ≠ []) (hfpne : fp ≠ [])
    (hipd : ∀ c ∈ ip, c.isDigit = true) (hfpd : ∀ c ∈ fp, c.isDigit = true) :
    pyFloatBody (ip ++ '.' :: fp) =
      some (((ip.foldl digitFold 0 : ℕ) : ℚ) +
        ((fp.foldl digitFold 0 : ℕ) : ℚ) / 10 ^ fp.length) := by
  have hslash : splitFirst '/' (ip ++ '.' :: fp) = none := by
    apply splitFirst_eq_none
    intro hc
    rcases List.mem_append.mp hc with hc | hc
    · exact absurd (hipd _ hc) (by decide)
    · rcases List.mem_cons.mp hc with hc | hc
      · exact absurd hc (by decide)
      · exact absurd (hfpd _ hc) (by decide)
  have hdot : splitFirst '.' (ip ++ '.' :: fp) = some (ip, fp) := by
    apply splitFirst_append
    intro hc
    exact absurd (hipd _ hc) (by decide)
  simp only [pyFloatBody, hslash, hdot, natFromChars_eq_some ip hipne hipd,
    natFromChars_eq_some fp hfpne hfpd]

theorem pyFloatBody_slash (a b : ℕ) (hb : b ≠ 0) :
    pyFloatBody (digitsStr a ++ '/' :: digitsStr b) = some ((a : ℚ) / b) := by
  have hsplit : splitFirst '/' (digitsStr a ++ '/' :: digitsStr b)
      = some (digitsStr a, digitsStr b) := by
    apply splitFirst_append
    intro hc
    exact absurd (List.all_eq_true.mp (digitsStr_all_digits a) _ hc) (by decide)
  simp only [pyFloatBody, hsplit, natFromChars_digitsStr, if_neg hb]

theorem pyFloatChars_decimalChars (m : ℤ) (k : ℕ) (hk : k ≠ 0) :
    pyFloatChars (decimalChars m k) = some ((m : ℚ) / 10 ^ k) := by
  set ds := digitsStr m.natAbs with hds
  set padded := List.replicate (k + 1 - ds.length) '0' ++ ds with hpad
  set ip := padded.take (padded.length - k) with hip
  set fp := padded.drop (padded.length - k) with hfp
  have hdsne : ds ≠ [] := digitsStr_ne_nil _
  have hds1 : 1 ≤ ds.length := List.length_pos.mpr hdsne
  have hpadlen : k + 1 ≤ padded.length := by
    rw [hpad, List.length_append, List.length_replicate]
    omega
  have hpaddig : ∀ c ∈ padded, c.isDigit = true := by
    intro c hc
    rw [hpad] at hc
    rcases List.mem_append.mp hc with hc | hc
    · rw [List.eq_of_mem_replicate hc]
      decide
    · exact List.all_eq_true.mp (digitsStr_all_digits _) c hc
  have hipfp : ip ++ fp = padded := List.take_append_drop _ _
  have hiplen : ip.length = padded.length - k := by
    rw [hip, List.length_take]
    omega
  have hfplen : fp.length = k := by
    rw [hfp, List.length_drop]
    omega
  have hipne : ip ≠ [] := by
    intro h0
    have := congrArg List.length h0
    rw [hiplen] at this
    simp only [List.length_nil] at this
    omega
  have hfpne : fp ≠ [] := by
    intro h0
    have := congrArg List.length h0
    rw [hfplen] at this
    simp only [List.length_nil] at this
    exact hk this
  have hipd : ∀ c ∈ ip, c.isDigit = true := fun c hc =>
    hpaddig c (List.take_subset _ _ hc)
  have hfpd : ∀ c ∈ fp, c.isDigit = true := fun c hc =>
    hpaddig c (List.drop_subset _ _ hc)
  have hval : (ip.foldl digitFold 0) * 10 ^ k + fp.foldl digitFold 0 = m.natAbs := by
    have h1 := foldl_digitFold_append ip fp
    rw [hfplen] at h1
    rw [← h1, hipfp, hpad, foldl_digitFold_replicate_zero, hds]
    exact foldl_digitsStr m.natAbs
  have hbody : pyFloatBody (ip ++ '.' :: fp) = some ((m.natAbs : ℚ) / 10 ^ k) := by
    rw [pyFloatBody_decimal ip fp hipne hfpne hipd hfpd, hfplen]
    congr 1
    have h10 : ((10 : ℚ) ^ k) ≠ 0 := by positivity
    field_simp
    exact_mod_cast hval
  by_cases hm : m < 0
  · have hmq : (m : ℚ) < 0 := by exact_mod_cast hm
    have hcs : decimalChars m k = '-' :: (ip ++ '.' :: fp) := by
      show (if m < 0 then ['-'] else []) ++
        padded.take (padded.length - k) ++ '.' :: padded.drop (padded.length - k)
        = '-' :: (ip ++ '.' :: fp)
      rw [if_pos hm, ← hip, ← hfp]
      simp
    rw [hcs]
    show (pyFloatBody (ip ++ '.' :: fp)).map (fun x => -x) = some ((m : ℚ) / 10 ^ k)
    rw [hbody]
    show some (-((m.natAbs : ℚ) / 10 ^ k)) = some ((m : ℚ) / 10 ^ k)
    congr 1
    have h1 : (m.natAbs : ℤ) = -m := by omega
    have hcast : ((m.natAbs : ℚ)) = -(m : ℚ) := by
      calc ((m.natAbs : ℚ)) = (((m.natAbs : ℤ) : ℚ)) := by rw [Int.cast_natCast]
        _ = ((-m : ℤ) : ℚ) := by rw [h1]
        _ = -(m : ℚ) := by push_cast; ring
    rw [hcast]
    ring
  · have hmq : (0 : ℚ) ≤ (m : ℚ) := by
      have : (0 : ℤ) ≤ m := not_lt.mp hm
      exact_mod_cast this
    have hcs : decimalChars m k = ip ++ '.' :: fp := by
      show (if m < 0 then ['-'] else []) ++
        padded.take (padded.length - k) ++ '.' :: padded.drop (padded.length - k)
        = ip ++ '.' :: fp
      rw [if_neg hm, ← hip, ← hfp]
      simp
    rw [hcs]
    unfold pyFloatChars
    rw [if_neg ?_, hbody]
    · congr 1
      have h1 : (m.natAbs : ℤ) = m := by omega
      have hcast : ((m.natAbs : ℚ)) = (m : ℚ) := by
        calc ((m.natAbs : ℚ)) = (((m.natAbs : ℤ) : ℚ)) := by rw [Int.cast_natCast]
          _ = ((m : ℤ) : ℚ) := by rw [h1]
      rw [hcast]
    · cases hip0 : ip with
      | nil => exact absurd hip0 hipne
      | cons c ip2 =>
        rw [List.cons_append, List.head?_cons]
        intro hcon
        have hcd : c.isDigit = true := hipd c (by rw [hip0]; exact List.mem_cons_self _ _)
        rw [Option.some.injEq] at hcon
        rw [hcon] at hcd
        exact absurd hcd (by decide)

/-- Round trip: Python `float(str(x)) == x` on the value level (CPython
prints the shortest reparsing decimal, this model the exact expansion of the
same dyadic value). -/
theorem pyFloat_pyStrFloat (q : ℚ) : pyFloat (pyStrFloat q) = some q := by
  unfold pyFloat pyStrFloat
  cases hf : (List.range 1101).find? (fun j => (q.den : ℕ) ∣ 10 ^ (j + 1)) with
  | some j =>
    have hdvd : (q.den : ℕ) ∣ 10 ^ (j + 1) := by
      have := List.find?_some hf
      exact of_decide_eq_true this
    have hden0 : ((q.den : ℕ) : ℚ) ≠ 0 := by
      exact_mod_cast q.den_nz
    show pyFloatChars (decimalChars (q.num * (((10 ^ (j + 1) : ℕ) / q.den : ℕ) : ℤ))
      (j + 1)) = some q
    rw [pyFloatChars_decimalChars _ _ (Nat.succ_ne_zero j)]
    congr 1
    rw [Int.cast_mul, Int.cast_natCast]
    rw [div_eq_iff (show ((10 : ℚ) ^ (j + 1)) ≠ 0 by positivity)]
    have hkey : (((10 ^ (j + 1) : ℕ) / q.den : ℕ) : ℚ) * (q.den : ℚ) = 10 ^ (j + 1) := by
      rw [← Nat.cast_mul, Nat.div_mul_cancel hdvd]
      push_cast
      ring
    have hqd := Rat.num_div_den q
    rw [div_eq_iff hden0] at hqd
    calc ((q.num : ℤ) : ℚ) * (((10 ^ (j + 1) : ℕ) / q.den : ℕ) : ℚ)
        = (q * (q.den : ℚ)) * (((10 ^ (j + 1) : ℕ) / q.den : ℕ) : ℚ) := by rw [← hqd]
      _ = q * ((((10 ^ (j + 1) : ℕ) / q.den : ℕ) : ℚ) * (q.den : ℚ)) := by ring
      _ = q * 10 ^ (j + 1) := by rw [hkey]
  | none =>
    show pyFloatChars ((pyStrInt q.num ++ "/" ++ natToString q.den).data) = some q
    have hdata : (pyStrInt q.num ++ "/" ++ natToString q.den).data
        = (pyStrInt q.num).data ++ '/' :: digitsStr q.den := by
      rw [String.data_append, String.data_append, List.append_assoc,
        show ("/" : String).data = ['/'] from rfl, List.singleton_append,
        show (natToString q.den).data = digitsStr q.den from rfl]
    rw [hdata]
    by_cases hm : q.num < 0
    · have hmq : ((q.num : ℤ) : ℚ) < 0 := by exact_mod_cast hm
      have hint : (pyStrInt q.num).data = '-' :: digitsStr q.num.natAbs := by
        unfold pyStrInt
        rw [if_pos hm]
      rw [hint, List.cons_append]
      show (pyFloatBody (digitsStr q.num.natAbs ++ '/' :: digitsStr q.den)).map
        (fun x => -x) = some q
      rw [pyFloatBody_slash _ _ q.den_nz]
      show some (-((q.num.natAbs : ℚ) / q.den)) = some q
      congr 1
      have h1 : (q.num.natAbs : ℤ) = -q.num := by omega
      have hcast : ((q.num.natAbs : ℚ)) = -(q.num : ℚ) := by
        calc ((q.num.natAbs : ℚ)) = (((q.num.natAbs : ℤ) : ℚ)) := by rw [Int.cast_natCast]
          _ = ((-q.num : ℤ) : ℚ) := by rw [h1]
          _ = -(q.num : ℚ) := by push_cast; ring
      rw [hcast, neg_div, neg_neg, Rat.num_div_den]
    · have hmq : (0 : ℚ) ≤ ((q.num : ℤ) : ℚ) := by
        have : (0 : ℤ) ≤ q.num := not_lt.mp hm
        exact_mod_cast this
      have hint : (pyStrInt q.num).data = digitsStr q.num.natAbs := by
        unfold pyStrInt
        rw [if_neg hm]
      rw [hint]
      unfold pyFloatChars
      rw [if_neg ?_, pyFloatBody_slash _ _ q.den_nz]
      · congr 1
        have h1 : (q.num.natAbs : ℤ) = q.num := by omega
        have hcast : ((q.num.natAbs : ℚ)) = (q.num : ℚ) := by
          calc ((q.num.natAbs : ℚ)) = (((q.num.natAbs : ℤ) : ℚ)) := by rw [Int.cast_natCast]
            _ = ((q.num : ℤ) : ℚ) := by rw [h1]
        rw [hcast, Rat.num_div_den]
      · cases hd0 : digitsStr q.num.natAbs with
        | nil => exact absurd hd0 (digitsStr_ne_nil _)
        | cons c cs2 =>
          rw [List.cons_append, List.head?_cons]
          intro hcon
          have hcd : c.isDigit = true := List.all_eq_true.mp (digitsStr_all_digits _) c
            (by rw [hd0]; exact List.mem_cons_self _ _)
          rw [Option.some.injEq] at hcon
          rw [hcon] at hcd
          exact absurd hcd (by decide)

/-- First-match association lookup: Python `settings[k]` on the dict whose
items form the list (dict keys are unique, so the first match is the value). -/
def alookup {β : Type} (k : String) : List (String × β) → Option β
  | [] => none
  | kv :: rest => if kv.1 = k then some kv.2 else alookup k rest

/-- The numeric view a pyttsx3 range check such as `50 <= rate <= 400` takes
of a raw settings value: ints and floats compare numerically and bools count
as 0/1 (a Python bool is an int); any other value raises TypeError, which
the setter's `try` turns into a False return with no property change. -/
def pyToRat : PyValue → Option ℚ
  | .int n => some (n : ℚ)
  | .float q => some q
  | .bool b => some (if b then 1 else 0)
  | _ => none

/-- The values usable to index `self.voices`: ints and bools; anything else
raises inside the voice setter's `try` before any property changes. -/
def pyToIndex : PyValue → Option ℤ
  | .int n => some n
  | .bool b => some (if b then 1 else 0)
  | _ => none

/-- `TTSEngine.set_rate` as reached from `apply_settings` with a raw value:
a non-numeric value raises inside the `try` and reports failure with the
engine untouched. -/
def TTSEngine.set_rate_py (s : TTSState) (v : PyValue) : Bool × TTSState :=
  match pyToRat v with
  | some r => TTSEngine.set_rate s r
  | none => (false, s)

/-- `TTSEngine.set_volume` as reached from `apply_settings` with a raw value. -/
def TTSEngine.set_volume_py (s : TTSState) (v : PyValue) : Bool × TTSState :=
  match pyToRat v with
  | some r => TTSEngine.set_volume s r
  | none => (false, s)

/-- `TTSEngine.set_voice` as reached from `apply_settings` with a raw value. -/
def TTSEngine.set_voice_py (s : TTSState) (v : PyValue) : Bool × TTSState :=
  match pyToIndex v with
  | some i => TTSEngine.set_voice s i
  | none => (false, s)

/-- `TTSEngine.apply_settings` (tts_engine.py lines 94-101): attempt the
rate, volume and voice setters for whichever keys are present, in this
order, ignoring each setter's boolean result; every setter catches its own
exceptions, so each present key is attempted whatever the earlier outcomes. -/
def TTSEngine.apply_settings (s : TTSState) (m : List (String × PyValue)) : TTSState :=
  let s1 := match alookup "rate" m with
    | some v => (TTSEngine.set_rate_py s v).2
    | none => s
  let s2 := match alookup "volume" m with
    | some v => (TTSEngine.set_volume_py s1 v).2
    | none => s1
  match alookup "voice_id" m with
  | some v => (TTSEngine.set_voice_py s2 v).2
  | none => s2

/-- One entry of the fixed language list of `GTTSEngine.get_available_voices`
(gtts_engine.py lines 42-54). -/
structure GTTSVoice where
  id : String
  name : String
  lang_code : String
  tld : String
deriving DecidableEq

/-- The gTTS mutable settings (gtts_engine.py lines 26-30). -/
structure GTTSState where
  lang : String
  slow : Bool
  tld : String
deriving DecidableEq

/-- The fixed language list of `GTTSEngine.get_available_voices`. -/
def GTTSEngine.voices : List GTTSVoice :=
  [⟨"en", "English (US)", "en", "com"⟩,
   ⟨"en-uk", "English (UK)", "en", "co.uk"⟩,
   ⟨"en-au", "English (Australia)", "en", "com.au"⟩,
   ⟨"es", "Spanish", "es", "com"⟩,
   ⟨"fr", "French", "fr", "com"⟩,
   ⟨"de", "German", "de", "com"⟩,
   ⟨"it", "Italian", "it", "com"⟩,
   ⟨"pt", "Portuguese", "pt", "com"⟩,
   ⟨"ja", "Japanese", "ja", "com"⟩,
   ⟨"ko", "Korean", "ko", "com"⟩,
   ⟨"zh-cn", "Chinese (Mandarin)", "zh-cn", "com"⟩]

/-- `GTTSEngine.set_voice` (gtts_engine.py lines 61-76): an index into the
fixed list updates language and accent domain; out of range warns and
returns False with the settings untouched. -/
def GTTSEngine.set_voice (s : GTTSState) (voice_id : ℤ) : Bool × GTTSState :=
  if 0 ≤ voice_id ∧ voice_id < (GTTSEngine.voices.length : ℤ) then
    let v := GTTSEngine.voices.getD voice_id.toNat ⟨"en", "English (US)", "en", "com"⟩
    (true, { s with lang := v.lang_code, tld := v.tld })
  else (false, s)

/-- `GTTSEngine.set_rate` (gtts_engine.py lines 78-88): any numeric rate is
accepted; below 1.0 maps to the slow flag, at or above 1.0 to normal. -/
def GTTSEngine.set_rate (s : GTTSState) (rate : ℚ) : Bool × GTTSState :=
  (true, { s with slow := decide (rate < 1) })

/-- `GTTSEngine.set_volume` (gtts_engine.py lines 90-93): unsupported; logs
and reports success without touching anything. -/
def GTTSEngine.set_volume (s : GTTSState) (volume : ℚ) : Bool × GTTSState :=
  (true, s)

/-- Python `float(x)` on a raw settings value, as called by
`GTTSEngine.apply_settings`: numbers pass through, bools count 0/1, strings
are parsed; any other value raises, and `apply_settings` has no handler, so
the exception escapes the whole call. -/
def pyFloatCoerce : PyValue → Option ℚ
  | .int n => some (n : ℚ)
  | .float q => some q
  | .bool b => some (if b then 1 else 0)
  | .str s => pyFloat s
  | _ => none

/-- Python `int(x)` on a raw settings value (floats truncate toward zero). -/
def pyIntCoerce : PyValue → Option ℤ
  | .int n => some n
  | .bool b => some (if b then 1 else 0)
  | .float q => some (q.num.tdiv (q.den : ℤ))
  | .str s => pyInt s
  | _ => none

/-- The `voice_id` step of `GTTSEngine.apply_settings` (gtts_engine.py lines
99-100): skipped when absent or None; `int()` may raise (`none`). -/
def GTTSEngine.applyVoiceStep (s : GTTSState) (m : List (String × PyValue)) :
    Option GTTSState :=
  match alookup "voice_id" m with
  | some v =>
    if v = .pynone then some s
    else
      match pyIntCoerce v with
      | some i => some (GTTSEngine.set_voice s i).2
      | none => none
  | none => some s

/-- `GTTSEngine.apply_settings` (gtts_engine.py lines 95-101): apply rate
then voice when present and not None; volume is not supported and never
applied; the `float()`/`int()` conversions sit outside any handler, so a
non-convertible value raises out of the whole call (`none`). -/
def GTTSEngine.apply_settings (s : GTTSState) (m : List (String × PyValue)) :
    Option GTTSState :=
  match alookup "rate" m with
  | some v =>
    if v = .pynone then GTTSEngine.applyVoiceStep s m
    else
      match pyFloatCoerce v with
      | some r => GTTSEngine.applyVoiceStep (GTTSEngine.set_rate s r).2 m
      | none => none
  | none => GTTSEngine.applyVoiceStep s m


theorem TTSEngine.set_rate_py_volume (s : TTSState) (v : PyValue) :
    (TTSEngine.set_rate_py s v).2.volume = s.volume := by
  unfold TTSEngine.set_rate_py TTSEngine.set_rate
  split
  · split <;> rfl
  · rfl

theorem TTSEngine.set_rate_py_voice (s : TTSState) (v : PyValue) :
    (TTSEngine.set_rate_py s v).2.voice = s.voice := by
  unfold TTSEngine.set_rate_py TTSEngine.set_rate
  split
  · split <;> rfl
  · rfl

theorem TTSEngine.set_rate_py_numVoices (s : TTSState) (v : PyValue) :
    (TTSEngine.set_rate_py s v).2.numVoices = s.numVoices := by
  unfold TTSEngine.set_rate_py TTSEngine.set_rate
  split
  · split <;> rfl
  · rfl

theorem TTSEngine.set_volume_py_rate (s : TTSState) (v : PyValue) :
    (TTSEngine.set_volume_py s v).2.rate = s.rate := by
  unfold TTSEngine.set_volume_py TTSEngine.set_volume
  split
  · split <;> rfl
  · rfl

theorem TTSEngine.set_volume_py_voice (s : TTSState) (v : PyValue) :
    (TTSEngine.set_volume_py s v).2.voice = s.voice := by
  unfold TTSEngine.set_volume_py TTSEngine.set_volume
  split
  · split <;> rfl
  · rfl

theorem TTSEngine.set_volume_py_numVoices (s : TTSState) (v : PyValue) :
    (TTSEngine.set_volume_py s v).2.numVoices = s.numVoices := by
  unfold TTSEngine.set_volume_py TTSEngine.set_volume
  split
  · split <;> rfl
  · rfl

theorem TTSEngine.set_voice_py_rate (s : TTSState) (v : PyValue) :
    (TTSEngine.set_voice_py s v).2.rate = s.rate := by
  unfold TTSEngine.set_voice_py TTSEngine.set_voice
  split
  · split <;> rfl
  · rfl

theorem TTSEngine.set_voice_py_volume (s : TTSState) (v : PyValue) :
    (TTSEngine.set_voice_py s v).2.volume = s.volume := by
  unfold TTSEngine.set_voice_py TTSEngine.set_voice
  split
  · split <;> rfl
  · rfl

theorem TTSEngine.set_rate_py_rate_char (s : TTSState) (v : PyValue) :
    (TTSEngine.set_rate_py s v).2.rate =
      (match pyToRat v with
       | some r => if 50 ≤ r ∧ r ≤ 400 then r else s.rate
       | none => s.rate) := by
  unfold TTSEngine.set_rate_py TTSEngine.set_rate
  split
  · split <;> rfl
  · rfl

theorem TTSEngine.set_volume_py_volume_char (s : TTSState) (v : PyValue) :
    (TTSEngine.set_volume_py s v).2.volume =
      (match pyToRat v with
       | some r => if 0 ≤ r ∧ r ≤ 1 then r else s.volume
       | none => s.volume) := by
  unfold TTSEngine.set_volume_py TTSEngine.set_volume
  split
  · split <;> rfl
  · rfl

theorem TTSEngine.set_voice_py_voice_char (s : TTSState) (v : PyValue) :
    (TTSEngine.set_voice_py s v).2.voice =
      (match pyToIndex v with
       | some i => if 0 ≤ i ∧ i < (s.numVoices : ℤ) then i.toNat else s.voice
       | none => s.voice) := by
  unfold TTSEngine.set_voice_py TTSEngine.set_voice
  split
  · split <;> rfl
  · rfl

theorem TTSEngine.apply_settings_fields (s : TTSState) (m : List (String × PyValue)) :
    (TTSEngine.apply_settings s m).rate =
      (match alookup "rate" m with
       | some v => (TTSEngine.set_rate_py s v).2.rate
       | none => s.rate) ∧
    (TTSEngine.apply_settings s m).volume =
      (match alookup "volume" m with
       | some v => (TTSEngine.set_volume_py s v).2.volume
       | none => s.volume) ∧
    (TTSEngine.apply_settings s m).voice =
      (match alookup "voice_id" m with
       | some v => (TTSEngine.set_voice_py s v).2.voice
       | none => s.voice) := by
  unfold TTSEngine.apply_settings
  cases h1 : alookup "rate" m <;> cases h2 : alookup "volume" m <;>
    cases h3 : alookup "voice_id" m <;>
    refine ⟨?_, ?_, ?_⟩ <;>
    simp [TTSEngine.set_rate_py_volume, TTSEngine.set_rate_py_voice,
      TTSEngine.set_rate_py_numVoices, TTSEngine.set_volume_py_rate,
      TTSEngine.set_volume_py_voice, TTSEngine.set_volume_py_numVoices,
      TTSEngine.set_voice_py_rate, TTSEngine.set_voice_py_volume,
      TTSEngine.set_rate_py_rate_char, TTSEngine.set_volume_py_volume_char,
      TTSEngine.set_voice_py_voice_char]

theorem GTTSEngine.set_voice_slow (s : GTTSState) (i : ℤ) :
    (GTTSEngine.set_voice s i).2.slow = s.slow := by
  unfold GTTSEngine.set_voice
  split <;> rfl

theorem GTTSEngine.set_voice_invalid (t : GTTSState) (i : ℤ)
    (h : ¬(0 ≤ i ∧ i < (GTTSEngine.voices.length : ℤ))) :
    (GTTSEngine.set_voice t i).2 = t := by
  unfold GTTSEngine.set_voice
  rw [if_neg h]

theorem GTTSEngine.applyVoiceStep_slow (t : GTTSState) (m : List (String × PyValue))
    (s' : GTTSState) (h : GTTSEngine.applyVoiceStep t m = some s') :
    s'.slow = t.slow := by
  unfold GTTSEngine.applyVoiceStep at h
  split at h
  · split at h
    · rw [Option.some.injEq] at h
      rw [← h]
    · split at h
      · rename_i i hi
        rw [Option.some.injEq] at h
        rw [← h]
        exact GTTSEngine.set_voice_slow t i
      · exact absurd h (by simp)
  · rw [Option.some.injEq] at h
    rw [← h]

theorem GTTSEngine.applyVoiceStep_null_id (t : GTTSState) (m : List (String × PyValue))
    (s' : GTTSState) (h : GTTSEngine.applyVoiceStep t m = some s')
    (hk : alookup "voice_id" m = none ∨ alookup "voice_id" m = some PyValue.pynone) :
    s' = t := by
  unfold GTTSEngine.applyVoiceStep at h
  rcases hk with hk | hk <;> rw [hk] at h
  · replace h : some t = some s' := h
    rw [Option.some.injEq] at h
    exact h.symm
  · replace h : some t = some s' := h
    rw [Option.some.injEq] at h
    exact h.symm

theorem GTTSEngine.applyVoiceStep_coerce (t : GTTSState) (m : List (String × PyValue))
    (s' : GTTSState) (v : PyValue) (i : ℤ)
    (h : GTTSEngine.applyVoiceStep t m = some s')
    (hv : alookup "voice_id" m = some v) (hnn : v ≠ .pynone)
    (hi : pyIntCoerce v = some i) :
    s' = (GTTSEngine.set_voice t i).2 := by
  unfold GTTSEngine.applyVoiceStep at h
  rw [hv] at h
  replace h : (if v = PyValue.pynone then some t
    else match pyIntCoerce v with
         | some i => some (GTTSEngine.set_voice t i).2
         | none => none) = some s' := h
  rw [if_neg hnn, hi] at h
  replace h : some (GTTSEngine.set_voice t i).2 = some s' := h
  rw [Option.some.injEq] at h
  exact h.symm

theorem GTTSEngine.applyVoiceStep_total (t : GTTSState) (m : List (String × PyValue))
    (hk : alookup "voice_id" m = none ∨ alookup "voice_id" m = some PyValue.pynone ∨
      ∃ v i, alookup "voice_id" m = some v ∧ v ≠ PyValue.pynone ∧ pyIntCoerce v = some i) :
    ∃ s', GTTSEngine.applyVoiceStep t m = some s' := by
  unfold GTTSEngine.applyVoiceStep
  rcases hk with hk | hk | ⟨v, i, hk, hnn, hi⟩
  · rw [hk]
    exact ⟨t, rfl⟩
  · rw [hk]
    exact ⟨t, rfl⟩
  · rw [hk]
    refine ⟨(GTTSEngine.set_voice t i).2, ?_⟩
    show (if v = PyValue.pynone then some t
      else match pyIntCoerce v with
           | some i => some (GTTSEngine.set_voice t i).2
           | none => none) = some (GTTSEngine.set_voice t i).2
    rw [if_neg hnn, hi]

theorem GTTSEngine.apply_settings_via_step (g : GTTSState) (m : List (String × PyValue))
    (s' : GTTSState) (h : GTTSEngine.apply_settings g m = some s') :
    ∃ t, GTTSEngine.applyVoiceStep t m = some s' ∧ t.lang = g.lang ∧ t.tld = g.tld := by
  unfold GTTSEngine.apply_settings at h
  split at h
  · split at h
    · exact ⟨g, h, rfl, rfl⟩
    · split at h
      · rename_i r hr
        exact ⟨(GTTSEngine.set_rate g r).2, h, rfl, rfl⟩
      · exact absurd h (by simp)
  · exact ⟨g, h, rfl, rfl⟩

theorem GTTSEngine.apply_settings_slow (g : GTTSState) (m : List (String × PyValue))
    (s' : GTTSState) (h : GTTSEngine.apply_settings g m = some s') :
    ((alookup "rate" m = none ∨ alookup "rate" m = some PyValue.pynone) →
      s'.slow = g.slow) ∧
    (∀ v r, alookup "rate" m = some v → v ≠ PyValue.pynone → pyFloatCoerce v = some r →
      s'.slow = decide (r < 1)) := by
  constructor
  · intro hk
    unfold GTTSEngine.apply_settings at h
    rcases hk with hk | hk <;> rw [hk] at h
    · exact GTTSEngine.applyVoiceStep_slow _ _ _ h
    · replace h : GTTSEngine.applyVoiceStep g m = some s' := h
      exact GTTSEngine.applyVoiceStep_slow _ _ _ h
  · intro v r hv hnn hr
    unfold GTTSEngine.apply_settings at h
    rw [hv] at h
    replace h : (if v = PyValue.pynone then GTTSEngine.applyVoiceStep g m
      else match pyFloatCoerce v with
           | some r => GTTSEngine.applyVoiceStep (GTTSEngine.set_rate g r).2 m
           | none => none) = some s' := h
    rw [if_neg hnn, hr] at h
    replace h : GTTSEngine.applyVoiceStep (GTTSEngine.set_rate g r).2 m = some s' := h
    rw [GTTSEngine.applyVoiceStep_slow _ _ _ h]
    rfl

/-- C7: for both batch setters, exactly the present keys among voice, rate
and volume are applied, each independently of the others' validity. Offline
engine: an absent key, a None value (which raises inside the setter's `try`)
or an out-of-range value leaves the corresponding engine parameter exactly
unchanged, while a present in-range value is applied - each clause holding
with no assumption on the other keys, so one key's failure never prevents
the rest. gTTS engine: rate and voice are applied when present and
non-null, an absent or null key leaves the parameter unchanged, an invalid
voice index leaves language and domain unchanged while the rate is still
applied, and the call returns a state (no exception) whenever the present
values are convertible. -/
theorem c7_apply_settings_partial (s : TTSState) (g : GTTSState)
    (m : List (String × PyValue)) :
    ((alookup "rate" m = none ∨ ∃ v, alookup "rate" m = some v ∧ pyToRat v = none) →
      (TTSEngine.apply_settings s m).rate = s.rate) ∧
    (∀ v r, alookup "rate" m = some v → pyToRat v = some r →
      (50 ≤ r ∧ r ≤ 400 → (TTSEngine.apply_settings s m).rate = r) ∧
      (¬(50 ≤ r ∧ r ≤ 400) → (TTSEngine.apply_settings s m).rate = s.rate)) ∧
    ((alookup "volume" m = none ∨ ∃ v, alookup "volume" m = some v ∧ pyToRat v = none) →
      (TTSEngine.apply_settings s m).volume = s.volume) ∧
    (∀ v r, alookup "volume" m = some v → pyToRat v = some r →
      (0 ≤ r ∧ r ≤ 1 → (TTSEngine.apply_settings s m).volume = r) ∧
      (¬(0 ≤ r ∧ r ≤ 1) → (TTSEngine.apply_settings s m).volume = s.volume)) ∧
    ((alookup "voice_id" m = none ∨
        ∃ v, alookup "voice_id" m = some v ∧ pyToIndex v = none) →
      (TTSEngine.apply_settings s m).voice = s.voice) ∧
    (∀ v i, alookup "voice_id" m = some v → pyToIndex v = some i →
      (0 ≤ i ∧ i < (s.numVoices : ℤ) → (TTSEngine.apply_settings s m).voice = i.toNat) ∧
      (¬(0 ≤ i ∧ i < (s.numVoices : ℤ)) →
        (TTSEngine.apply_settings s m).voice = s.voice)) ∧
    (∀ s', GTTSEngine.apply_settings g m = some s' →
      ((alookup "rate" m = none ∨ alookup "rate" m = some PyValue.pynone) →
        s'.slow = g.slow) ∧
      (∀ v r, alookup "rate" m = some v → v ≠ PyValue.pynone →
        pyFloatCoerce v = some r → s'.slow = decide (r < 1)) ∧
      ((alookup "voice_id" m = none ∨ alookup "voice_id" m = some PyValue.pynone) →
        s'.lang = g.lang ∧ s'.tld = g.tld) ∧
      (∀ v i, alookup "voice_id" m = some v → v ≠ PyValue.pynone →
        pyIntCoerce v = some i → ¬(0 ≤ i ∧ i < (GTTSEngine.voices.length : ℤ)) →
        s'.lang = g.lang ∧ s'.tld = g.tld)) ∧
    ((alookup "rate" m = none ∨ alookup "rate" m = some PyValue.pynone ∨
        ∃ v r, alookup "rate" m = some v ∧ v ≠ PyValue.pynone ∧
          pyFloatCoerce v = some r) →
      (alookup "voice_id" m = none ∨ alookup "voice_id" m = some PyValue.pynone ∨
        ∃ v i, alookup "voice_id" m = some v ∧ v ≠ PyValue.pynone ∧
          pyIntCoerce v = some i) →
      ∃ s', GTTSEngine.apply_settings g m = some s') := by
  obtain ⟨hr, hv, hvo⟩ := TTSEngine.apply_settings_fields s m
  refine ⟨?_, ?_, ?_, ?_, ?_, ?_, ?_, ?_⟩
  · rintro (h | ⟨v, h, hc⟩)
    · rw [hr, h]
    · rw [hr, h]
      show (TTSEngine.set_rate_py s v).2.rate = s.rate
      rw [TTSEngine.set_rate_py_rate_char, hc]
  · intro v r h hc
    constructor
    · intro hrange
      rw [hr, h]
      show (TTSEngine.set_rate_py s v).2.rate = r
      rw [TTSEngine.set_rate_py_rate_char, hc]
      exact if_pos hrange
    · intro hrange
      rw [hr, h]
      show (TTSEngine.set_rate_py s v).2.rate = s.rate
      rw [TTSEngine.set_rate_py_rate_char, hc]
      exact if_neg hrange
  · rintro (h | ⟨v, h, hc⟩)
    · rw [hv, h]
    · rw [hv, h]
      show (TTSEngine.set_volume_py s v).2.volume = s.volume
      rw [TTSEngine.set_volume_py_volume_char, hc]
  · intro v r h hc
    constructor
    · intro hrange
      rw [hv, h]
      show (TTSEngine.set_volume_py s v).2.volume = r
      rw [TTSEngine.set_volume_py_volume_char, hc]
      exact if_pos hrange
    · intro hrange
      rw [hv, h]
      show (TTSEngine.set_volume_py s v).2.volume = s.volume
      rw [TTSEngine.set_volume_py_volume_char, hc]
      exact if_neg hrange
  · rintro (h | ⟨v, h, hc⟩)
    · rw [hvo, h]
    · rw [hvo, h]
      show (TTSEngine.set_voice_py s v).2.voice = s.voice
      rw [TTSEngine.set_voice_py_voice_char, hc]
  · intro v i h hc
    constructor
    · intro hrange
      rw [hvo, h]
      show (TTSEngine.set_voice_py s v).2.voice = i.toNat
      rw [TTSEngine.set_voice_py_voice_char, hc]
      exact if_pos hrange
    · intro hrange
      rw [hvo, h]
      show (TTSEngine.set_voice_py s v).2.voice = s.voice
      rw [TTSEngine.set_voice_py_voice_char, hc]
      exact if_neg hrange
  · intro s' happ
    obtain ⟨t, hstep, hlang, htld⟩ := GTTSEngine.apply_settings_via_step g m s' happ
    refine ⟨(GTTSEngine.apply_settings_slow g m s' happ).1,
      (GTTSEngine.apply_settings_slow g m s' happ).2, ?_, ?_⟩
    · intro hk
      rw [GTTSEngine.applyVoiceStep_null_id t m s' hstep hk]
      exact ⟨hlang, htld⟩
    · intro v i hkv hnn hi hrange
      rw [GTTSEngine.applyVoiceStep_coerce t m s' v i hstep hkv hnn hi,
        GTTSEngine.set_voice_invalid t i hrange]
      exact ⟨hlang, htld⟩
  · intro hkr hkv
    unfold GTTSEngine.apply_settings
    rcases hkr with hkr | hkr | ⟨v, r, hkr, hnn, hcr⟩
    · rw [hkr]
      obtain ⟨s', hs'⟩ := GTTSEngine.applyVoiceStep_total g m hkv
      exact ⟨s', hs'⟩
    · rw [hkr]
      obtain ⟨s', hs'⟩ := GTTSEngine.applyVoiceStep_total g m hkv
      exact ⟨s', hs'⟩
    · rw [hkr]
      obtain ⟨s', hs'⟩ :=
        GTTSEngine.applyVoiceStep_total (GTTSEngine.set_rate g r).2 m hkv
      refine ⟨s', ?_⟩
      show (if v = PyValue.pynone then GTTSEngine.applyVoiceStep g m
        else match pyFloatCoerce v with
             | some r => GTTSEngine.applyVoiceStep (GTTSEngine.set_rate g r).2 m
             | none => none) = some s'
      rw [if_neg hnn, hcr]
      exact hs'

/-- Witness for C7: applying the map rate=100.0, volume="oops", voice=None:
the offline engine updates the rate to 100 even though the volume value is
invalid (raising inside that setter) and the voice value is null, and both
of those parameters stay unchanged; the gTTS engine returns a state whose
slow flag reflects rate 100 while language and domain are untouched. -/
theorem c7_apply_settings_partial_witness :
    (TTSEngine.apply_settings ⟨200, 1, 0, 1⟩
      [("rate", .float 100), ("volume", .str "oops"), ("voice_id", .pynone)]).rate
        = 100 ∧
    (TTSEngine.apply_settings ⟨200, 1, 0, 1⟩
      [("rate", .float 100), ("volume", .str "oops"), ("voice_id", .pynone)]).volume
        = 1 ∧
    (TTSEngine.apply_settings ⟨200, 1, 0, 1⟩
      [("rate", .float 100), ("volume", .str "oops"), ("voice_id", .pynone)]).voice
        = 0 ∧
    ∃ s', GTTSEngine.apply_settings ⟨"en", true, "com"⟩
      [("rate", .float 100), ("volume", .str "oops"), ("voice_id", .pynone)] = some s' ∧
      s'.slow = false ∧ s'.lang = "en" ∧ s'.tld = "com" := by
  have h := c7_apply_settings_partial ⟨200, 1, 0, 1⟩ ⟨"en", true, "com"⟩
    [("rate", .float 100), ("volume", .str "oops"), ("voice_id", .pynone)]
  refine ⟨(h.2.1 (.float 100) 100 (by decide) rfl).1 (by decide),
    h.2.2.1 (Or.inr ⟨.str "oops", by decide, rfl⟩),
    h.2.2.2.2.1 (Or.inr ⟨.pynone, by decide, rfl⟩), ?_⟩
  obtain ⟨s', hs'⟩ := h.2.2.2.2.2.2.2
    (Or.inr (Or.inr ⟨.float 100, 100, by decide, by decide, rfl⟩))
    (Or.inr (Or.inl (by decide)))
  have hg := h.2.2.2.2.2.2.1 s' hs'
  refine ⟨s', hs', ?_, (hg.2.2.1 (Or.inr (by decide))).1,
    (hg.2.2.1 (Or.inr (by decide))).2⟩
  rw [hg.2.1 (.float 100) 100 (by decide) (by decide) rfl]
  decide

/-- The Python string form `str(value)` of a settings value, as written into
the INI cells by `save_user_preferences`. -/
def pyStr : PyValue → String
  | .int n => pyStrInt n
  | .float q => pyStrFloat q
  | .bool b => if b then "True" else "False"
  | .str s => s
  | .pynone => "None"
  | .other s => s

/-- The recognized keys of the [Voice] section, in the order the save
function writes them (config_manager.py lines 150-157). -/
def voiceKeys : List String := ["voice_id", "rate", "volume"]

/-- The recognized keys of the [Processing] section (lines 160-165). -/
def processingKeys : List String := ["chunk_size", "pause_between_chunks"]

/-- All recognized keys; every other key goes to [General] (line 170). -/
def recognizedKeys : List String := voiceKeys ++ processingKeys

/-- The INI document written by `save_user_preferences`: each section is an
ordered key-to-string map, absent when none of its keys was present.
configparser is modelled as an exact per-section string store. -/
structure IniFile where
  voice : Option (List (String × String))
  processing : Option (List (String × String))
  general : Option (List (String × String))
deriving DecidableEq

/-- One section of the save: present when any of its keys is in the
preferences, holding the present keys in canonical order with their
stringified values. -/
def iniSection (keys : List String) (prefs : List (String × PyValue)) :
    Option (List (String × String)) :=
  if keys.any (fun k => (alookup k prefs).isSome) then
    some (keys.filterMap (fun k => (alookup k prefs).map (fun v => (k, pyStr v))))
  else none

/-- `ConfigManager.save_user_preferences` (config_manager.py lines 136-184). -/
def ConfigManager.save_user_preferences (prefs : List (String × PyValue)) : IniFile :=
  let generalPairs := (prefs.filter (fun kv => !recognizedKeys.contains kv.1)).map
    (fun kv => (kv.1, pyStr kv.2))
  { voice := iniSection voiceKeys prefs,
    processing := iniSection processingKeys prefs,
    general := if generalPairs.isEmpty then none else some generalPairs }

/-- One recognized key reconstructed as an int on load (`int(section[k])`,
config_manager.py lines 206-209): absent keys contribute nothing; a parse
failure models the `int()` exception aborting the whole load. -/
def loadIntKey (sec : List (String × String)) (k : String) :
    Option (List (String × PyValue)) :=
  match alookup k sec with
  | none => some []
  | some cell => (pyInt cell).map (fun n => [(k, PyValue.int n)])

/-- One recognized key reconstructed as a float on load (`float(section[k])`,
lines 210-211 and 218-219). -/
def loadFloatKey (sec : List (String × String)) (k : String) :
    Option (List (String × PyValue)) :=
  match alookup k sec with
  | none => some []
  | some cell => (pyFloat cell).map (fun q => [(k, PyValue.float q)])

/-- The [Voice] block of `load_user_preferences` (config_manager.py lines
204-211): absent section contributes nothing; a failing `int()`/`float()`
aborts the whole load. -/
def loadVoiceSection : Option (List (String × String)) →
    Option (List (String × PyValue))
  | none => some []
  | some sec =>
    match loadIntKey sec "voice_id", loadIntKey sec "rate",
        loadFloatKey sec "volume" with
    | some a, some b, some c => some (a ++ b ++ c)
    | _, _, _ => none

/-- The [Processing] block of the load (config_manager.py lines 214-219). -/
def loadProcessingSection : Option (List (String × String)) →
    Option (List (String × PyValue))
  | none => some []
  | some sec =>
    match loadIntKey sec "chunk_size",
        loadFloatKey sec "pause_between_chunks" with
    | some a, some b => some (a ++ b)
    | _, _ => none

/-- The [General] block of the load (config_manager.py lines 222-224):
every catch-all key reloads as a string. -/
def loadGeneralSection : Option (List (String × String)) → List (String × PyValue)
  | none => []
  | some sec => sec.map (fun kv => (kv.1, PyValue.str kv.2))

/-- `ConfigManager.load_user_preferences` (config_manager.py lines 186-231):
`none` for a missing file or a failing numeric parse; otherwise the
recognized keys with reconstructed numeric types followed by the [General]
keys as strings, in the order the code inserts them. -/
def ConfigManager.load_user_preferences (file : Option IniFile) :
    Option (List (String × PyValue)) :=
  match file with
  | none => none
  | some ini =>
    match loadVoiceSection ini.voice, loadProcessingSection ini.processing with
    | some v, some p => some (v ++ p ++ loadGeneralSection ini.general)
    | _, _ => none

/-- The single entry a recognized key contributes to the reloaded map. -/
def iniRoundEntry (k : String) (prefs : List (String × PyValue)) :
    List (String × PyValue) :=
  match alookup k prefs with
  | some v => [(k, v)]
  | none => []

theorem alookup_append {β : Type} (k : String) (l1 l2 : List (String × β)) :
    alookup k (l1 ++ l2) = (alookup k l1).or (alookup k l2) := by
  induction l1 with
  | nil => rfl
  | cons kv rest ih =>
    rw [List.cons_append]
    show (if kv.1 = k then some kv.2 else alookup k (rest ++ l2)) =
      (if kv.1 = k then some kv.2 else alookup k rest).or (alookup k l2)
    by_cases h : kv.1 = k
    · rw [if_pos h, if_pos h]
      rfl
    · rw [if_neg h, if_neg h, ih]

theorem alookup_mapValues {β γ : Type} (k : String) (g : β → γ)
    (l : List (String × β)) :
    alookup k (l.map (fun kv => (kv.1, g kv.2))) = (alookup k l).map g := by
  induction l with
  | nil => rfl
  | cons kv rest ih =>
    rw [List.map_cons]
    unfold alookup
    by_cases h : kv.1 = k
    · rw [if_pos h, if_pos h]
      rfl
    · rw [if_neg h, if_neg h, ih]

theorem alookup_filterKeys {β : Type} (k : String) (p : String → Bool)
    (l : List (String × β)) :
    alookup k (l.filter (fun kv => p kv.1)) =
      if p k then alookup k l else none := by
  induction l with
  | nil => simp [alookup]
  | cons kv rest ih =>
    obtain ⟨k1, v1⟩ := kv
    by_cases h : k1 = k
    · subst h
      by_cases hp : p k1 <;> simp [List.filter_cons, alookup, hp, ih]
    · by_cases hp : p k1 <;> simp [List.filter_cons, alookup, hp, h, ih]

theorem alookup_iniRoundEntry (k k2 : String) (prefs : List (String × PyValue)) :
    alookup k (iniRoundEntry k2 prefs) =
      if k2 = k then alookup k2 prefs else none := by
  unfold iniRoundEntry
  cases h : alookup k2 prefs with
  | none => by_cases hk : k2 = k <;> simp [alookup, hk, h]
  | some v => by_cases hk : k2 = k <;> simp [alookup, hk, h]

theorem alookup_filterMap_not_mem (keys : List String) (prefs : List (String × PyValue))
    (k : String) (hk : k ∉ keys) :
    alookup k (keys.filterMap (fun k2 => (alookup k2 prefs).map
      (fun v => (k2, pyStr v)))) = none := by
  induction keys with
  | nil => rfl
  | cons k1 rest ih =>
    have hk1 : ¬(k1 = k) := by
      intro he
      subst he
      exact hk (List.mem_cons_self k1 rest)
    have hrest : k ∉ rest := fun h2 => hk (List.mem_cons_of_mem k1 h2)
    cases h1 : alookup k1 prefs with
    | none =>
      rw [List.filterMap_cons_none (by rw [h1]; rfl)]
      exact ih hrest
    | some v =>
      rw [List.filterMap_cons_some (by rw [h1]; rfl)]
      show (if k1 = k then some (pyStr v) else _) = none
      rw [if_neg hk1]
      exact ih hrest

theorem alookup_filterMap_mem (keys : List String) (prefs : List (String × PyValue))
    (k : String) (hk : k ∈ keys) (hnd : keys.Nodup) :
    alookup k (keys.filterMap (fun k2 => (alookup k2 prefs).map
      (fun v => (k2, pyStr v)))) = (alookup k prefs).map pyStr := by
  induction keys with
  | nil => cases hk
  | cons k1 rest ih =>
    obtain ⟨hk1r, hndr⟩ := List.nodup_cons.mp hnd
    rcases List.mem_cons.mp hk with rfl | hk2
    · cases h1 : alookup k prefs with
      | none =>
        rw [List.filterMap_cons_none (by rw [h1]; rfl),
          alookup_filterMap_not_mem rest prefs k hk1r]
        rfl
      | some v =>
        rw [List.filterMap_cons_some (by rw [h1]; rfl)]
        show (if k = k then some (pyStr v) else _) = _
        rw [if_pos rfl]
        rfl
    · have hk1 : ¬(k1 = k) := by
        intro he
        subst he
        exact hk1r hk2
      cases h1 : alookup k1 prefs with
      | none =>
        rw [List.filterMap_cons_none (by rw [h1]; rfl)]
        exact ih hk2 hndr
      | some v =>
        rw [List.filterMap_cons_some (by rw [h1]; rfl)]
        show (if k1 = k then some (pyStr v) else _) = _
        rw [if_neg hk1]
        exact ih hk2 hndr

theorem iniSection_some_lookup (keys : List String) (prefs : List (String × PyValue))
    (k : String) (hk : k ∈ keys) (hnd : keys.Nodup) (sec : List (String × String))
    (hsec : iniSection keys prefs = some sec) :
    alookup k sec = (alookup k prefs).map pyStr := by
  unfold iniSection at hsec
  by_cases hany : keys.any (fun k2 => (alookup k2 prefs).isSome)
  · rw [if_pos hany, Option.some.injEq] at hsec
    rw [← hsec]
    exact alookup_filterMap_mem keys prefs k hk hnd
  · rw [if_neg hany] at hsec
    exact absurd hsec (by simp)

theorem iniSection_none_lookup (keys : List String) (prefs : List (String × PyValue))
    (k : String) (hk : k ∈ keys) (hsec : iniSection keys prefs = none) :
    alookup k prefs = none := by
  unfold iniSection at hsec
  by_cases hany : keys.any (fun k2 => (alookup k2 prefs).isSome)
  · rw [if_pos hany] at hsec
    exact absurd hsec (by simp)
  · rw [List.any_eq_true] at hany
    push_neg at hany
    have h2 := hany k hk
    cases h : alookup k prefs with
    | none => rfl
    | some v =>
      rw [h] at h2
      exact absurd rfl h2

theorem loadIntKey_round (prefs : List (String × PyValue)) (sec : List (String × String))
    (k : String) (hsl : alookup k sec = (alookup k prefs).map pyStr)
    (hty : ∀ v, alookup k prefs = some v → ∃ n, v = PyValue.int n) :
    loadIntKey sec k = some (iniRoundEntry k prefs) := by
  unfold loadIntKey iniRoundEntry
  cases h : alookup k prefs with
  | none =>
    rw [h] at hsl
    rw [hsl]
    rfl
  | some v =>
    obtain ⟨n, rfl⟩ := hty v h
    rw [h] at hsl
    rw [hsl]
    show (pyInt (pyStrInt n)).map (fun n2 => [(k, PyValue.int n2)]) = some [(k, PyValue.int n)]
    rw [pyInt_pyStrInt]
    rfl

theorem loadFloatKey_round (prefs : List (String × PyValue)) (sec : List (String × String))
    (k : String) (hsl : alookup k sec = (alookup k prefs).map pyStr)
    (hty : ∀ v, alookup k prefs = some v → ∃ q, v = PyValue.float q) :
    loadFloatKey sec k = some (iniRoundEntry k prefs) := by
  unfold loadFloatKey iniRoundEntry
  cases h : alookup k prefs with
  | none =>
    rw [h] at hsl
    rw [hsl]
    rfl
  | some v =>
    obtain ⟨q, rfl⟩ := hty v h
    rw [h] at hsl
    rw [hsl]
    show (pyFloat (pyStrFloat q)).map (fun q2 => [(k, PyValue.float q2)])
      = some [(k, PyValue.float q)]
    rw [pyFloat_pyStrFloat]
    rfl

theorem alookup_mem {β : Type} (k : String) (l : List (String × β)) (v : β)
    (h : alookup k l = some v) : (k, v) ∈ l := by
  induction l with
  | nil => exact Option.noConfusion h
  | cons kv rest ih =>
    obtain ⟨a, b⟩ := kv
    replace h : (if a = k then some b else alookup k rest) = some v := h
    by_cases he : a = k
    · rw [if_pos he] at h
      injection h with h2
      subst he
      subst h2
      exact List.mem_cons_self _ _
    · rw [if_neg he] at h
      exact List.mem_cons_of_mem _ (ih h)

theorem alookup_generalRound (prefs : List (String × PyValue)) (k : String) :
    alookup k (loadGeneralSection (ConfigManager.save_user_preferences prefs).general) =
      if recognizedKeys.contains k then none
      else (alookup k prefs).map (fun v => PyValue.str (pyStr v)) := by
  have hgen : (ConfigManager.save_user_preferences prefs).general =
      (if ((prefs.filter (fun kv => !recognizedKeys.contains kv.1)).map
          (fun kv => (kv.1, pyStr kv.2))).isEmpty then none
        else some ((prefs.filter (fun kv => !recognizedKeys.contains kv.1)).map
          (fun kv => (kv.1, pyStr kv.2)))) := rfl
  rw [hgen]
  by_cases he : ((prefs.filter (fun kv => !recognizedKeys.contains kv.1)).map
      (fun kv => (kv.1, pyStr kv.2))).isEmpty
  · rw [if_pos he]
    have hfilter : prefs.filter (fun kv => !recognizedKeys.contains kv.1) = [] := by
      rw [List.isEmpty_iff, List.map_eq_nil_iff] at he
      exact he
    by_cases hk : recognizedKeys.contains k
    · rw [if_pos hk]
      rfl
    · rw [if_neg hk]
      have hnone : alookup k prefs = none := by
        cases h : alookup k prefs with
        | none => rfl
        | some v =>
          have hmem := alookup_mem k prefs v h
          have h2 := List.filter_eq_nil_iff.mp hfilter _ hmem
          simp at h2
          exact (hk (List.elem_iff.mpr h2)).elim
      rw [hnone]
      rfl
  · rw [if_neg he]
    show alookup k (((prefs.filter (fun kv => !recognizedKeys.contains kv.1)).map
        (fun kv => (kv.1, pyStr kv.2))).map (fun kv => (kv.1, PyValue.str kv.2))) = _
    rw [alookup_mapValues, alookup_mapValues,
      alookup_filterKeys k (fun s => !recognizedKeys.contains s) prefs]
    by_cases hk : k ∈ recognizedKeys
    · simp [hk]
    · simp only [Option.map_map]
      simp [hk]
      rfl

theorem loadVoiceSection_round (prefs : List (String × PyValue))
    (hvi : ∀ v, alookup "voice_id" prefs = some v → ∃ n, v = PyValue.int n)
    (hra : ∀ v, alookup "rate" prefs = some v → ∃ n, v = PyValue.int n)
    (hvol : ∀ v, alookup "volume" prefs = some v → ∃ q, v = PyValue.float q) :
    loadVoiceSection (iniSection voiceKeys prefs) =
      some (iniRoundEntry "voice_id" prefs ++ iniRoundEntry "rate" prefs ++
        iniRoundEntry "volume" prefs) := by
  cases hsec : iniSection voiceKeys prefs with
  | none =>
    have h1 := iniSection_none_lookup voiceKeys prefs "voice_id" (by decide) hsec
    have h2 := iniSection_none_lookup voiceKeys prefs "rate" (by decide) hsec
    have h3 := iniSection_none_lookup voiceKeys prefs "volume" (by decide) hsec
    simp only [loadVoiceSection, iniRoundEntry, h1, h2, h3]
    rfl
  | some sec =>
    have h1 := loadIntKey_round prefs sec "voice_id"
      (iniSection_some_lookup voiceKeys prefs "voice_id" (by decide) (by decide) sec hsec) hvi
    have h2 := loadIntKey_round prefs sec "rate"
      (iniSection_some_lookup voiceKeys prefs "rate" (by decide) (by decide) sec hsec) hra
    have h3 := loadFloatKey_round prefs sec "volume"
      (iniSection_some_lookup voiceKeys prefs "volume" (by decide) (by decide) sec hsec) hvol
    show (match loadIntKey sec "voice_id", loadIntKey sec "rate",
        loadFloatKey sec "volume" with
      | some a, some b, some c => some (a ++ b ++ c)
      | _, _, _ => none) = _
    rw [h1, h2, h3]

theorem loadProcessingSection_round (prefs : List (String × PyValue))
    (hcs : ∀ v, alookup "chunk_size" prefs = some v → ∃ n, v = PyValue.int n)
    (hpa : ∀ v, alookup "pause_between_chunks" prefs = some v →
      ∃ q, v = PyValue.float q) :
    loadProcessingSection (iniSection processingKeys prefs) =
      some (iniRoundEntry "chunk_size" prefs ++
        iniRoundEntry "pause_between_chunks" prefs) := by
  cases hsec : iniSection processingKeys prefs with
  | none =>
    have h1 := iniSection_none_lookup processingKeys prefs "chunk_size" (by decide) hsec
    have h2 := iniSection_none_lookup processingKeys prefs "pause_between_chunks"
      (by decide) hsec
    simp only [loadProcessingSection, iniRoundEntry, h1, h2]
    rfl
  | some sec =>
    have h1 := loadIntKey_round prefs sec "chunk_size"
      (iniSection_some_lookup processingKeys prefs "chunk_size" (by decide) (by decide)
        sec hsec) hcs
    have h2 := loadFloatKey_round prefs sec "pause_between_chunks"
      (iniSection_some_lookup processingKeys prefs "pause_between_chunks" (by decide)
        (by decide) sec hsec) hpa
    show (match loadIntKey sec "chunk_size",
        loadFloatKey sec "pause_between_chunks" with
      | some a, some b => some (a ++ b)
      | _, _ => none) = _
    rw [h1, h2]

/-- C6: for every preferences map whose recognized keys carry their
documented types, the INI store persists voice_id/rate/volume into [Voice],
chunk_size/pause_between_chunks into [Processing] and every other key into
the catch-all [General] section; reloading succeeds and reconstructs
voice_id, rate and chunk_size as integers, volume and pause_between_chunks
as floats (so those keys round-trip to their original values), while every
catch-all key round-trips as the string form of its value. -/
theorem c6_ini_round_trip (prefs : List (String × PyValue))
    (hvi : ∀ v, alookup "voice_id" prefs = some v → ∃ n, v = PyValue.int n)
    (hra : ∀ v, alookup "rate" prefs = some v → ∃ n, v = PyValue.int n)
    (hcs : ∀ v, alookup "chunk_size" prefs = some v → ∃ n, v = PyValue.int n)
    (hvol : ∀ v, alookup "volume" prefs = some v → ∃ q, v = PyValue.float q)
    (hpa : ∀ v, alookup "pause_between_chunks" prefs = some v →
      ∃ q, v = PyValue.float q) :
    ∃ r, ConfigManager.load_user_preferences
        (some (ConfigManager.save_user_preferences prefs)) = some r ∧
      ∀ k, alookup k r = (alookup k prefs).map
        (fun v => if recognizedKeys.contains k then v else PyValue.str (pyStr v)) := by
  refine ⟨iniRoundEntry "voice_id" prefs ++ iniRoundEntry "rate" prefs ++
    iniRoundEntry "volume" prefs ++ (iniRoundEntry "chunk_size" prefs ++
    iniRoundEntry "pause_between_chunks" prefs) ++
    loadGeneralSection (ConfigManager.save_user_preferences prefs).general, ?_, ?_⟩
  · have hv := loadVoiceSection_round prefs hvi hra hvol
    have hp := loadProcessingSection_round prefs hcs hpa
    show (match loadVoiceSection (iniSection voiceKeys prefs),
        loadProcessingSection (iniSection processingKeys prefs) with
      | some v, some p => some (v ++ p ++ loadGeneralSection
          (ConfigManager.save_user_preferences prefs).general)
      | _, _ => none) = _
    rw [hv, hp]
  · intro k
    simp only [alookup_append, alookup_iniRoundEntry]
    rw [alookup_generalRound]
    by_cases hk : recognizedKeys.contains k
    · have hk5 : k = "voice_id" ∨ k = "rate" ∨ k = "volume" ∨ k = "chunk_size" ∨
          k = "pause_between_chunks" := by
        have hmem : k ∈ recognizedKeys := List.elem_iff.mp hk
        simpa [recognizedKeys, voiceKeys, processingKeys] using hmem
      rw [if_pos hk]
      rcases hk5 with rfl | rfl | rfl | rfl | rfl <;>
        simp [recognizedKeys, voiceKeys, processingKeys]
    · have h1 : ¬("voice_id" = k) := fun he =>
        hk (he ▸ (show recognizedKeys.contains "voice_id" = true by decide))
      have h2 : ¬("rate" = k) := fun he =>
        hk (he ▸ (show recognizedKeys.contains "rate" = true by decide))
      have h3 : ¬("volume" = k) := fun he =>
        hk (he ▸ (show recognizedKeys.contains "volume" = true by decide))
      have h4 : ¬("chunk_size" = k) := fun he =>
        hk (he ▸ (show recognizedKeys.contains "chunk_size" = true by decide))
      have h5 : ¬("pause_between_chunks" = k) := fun he =>
        hk (he ▸ (show recognizedKeys.contains "pause_between_chunks" = true by decide))
      have hmem : k ∉ recognizedKeys := fun hm => hk (List.elem_iff.mpr hm)
      rw [if_neg hk]
      simp [h1, h2, h3, h4, h5, hmem]

theorem c6_ini_round_trip_witness :
    ∃ r, ConfigManager.load_user_preferences
        (some (ConfigManager.save_user_preferences
          [("voice_id", PyValue.int 2), ("rate", PyValue.int 220),
            ("favorite_format", PyValue.str "pdf")])) = some r ∧
      ∀ k, alookup k r = (alookup k
          [("voice_id", PyValue.int 2), ("rate", PyValue.int 220),
            ("favorite_format", PyValue.str "pdf")]).map
        (fun v => if recognizedKeys.contains k then v
          else PyValue.str (pyStr v)) :=
  c6_ini_round_trip
    [("voice_id", PyValue.int 2), ("rate", PyValue.int 220),
      ("favorite_format", PyValue.str "pdf")]
    (by
      intro v hv
      replace hv : some (PyValue.int 2) = some v := hv
      injection hv with h2
      exact ⟨2, h2.symm⟩)
    (by
      intro v hv
      replace hv : some (PyValue.int 220) = some v := hv
      injection hv with h2
      exact ⟨220, h2.symm⟩)
    (by intro v hv; exact Option.noConfusion hv)
    (by intro v hv; exact Option.noConfusion hv)
    (by intro v hv; exact Option.noConfusion hv)
